import Mathlib

/-!
Verification development for a Go HTTP-archive (HAR) recording library.

The library has two source files:

* `round_tripper.go` — an `http.RoundTripper` wrapper that captures each
  request/response exchange as a HAR entry: `preRoundTrip` buffers and decodes
  the request body, the inner transport is invoked, `postRoundTrip` buffers the
  response body and computes timings, `writeEntry` runs the rewrite hook and
  appends the serialized entry to the output sink.
* `writers.go` — a framed-array streaming writer (`HarWriter`) that emits
  `{"log":{"version":"1.2","creator":…,"entries":[ … ]}}` incrementally, plus a
  line-delimited writer (`HarNDWriter`).

The embedding below models Go byte strings as `List Nat` (each element a byte
value), the output sink as an accumulated `List Char`, Go `error` values by
their message strings, and fallible operations with `Except`.  JSON
serialization/parsing (a trusted external utility for the Go code) is given a
concrete executable model: a value type `J`, a canonical renderer `render`, and
a whitespace-tolerant fuel-based parser `parseVal`/`parseJson`, related by a
proved render/parse round-trip, so that "the emitted bytes parse as a JSON
document of the given shape" is a real theorem about the writer's output.
-/

namespace Har

/-- Go byte strings (`[]byte` / `string`) modelled as lists of byte values. -/
abbrev Bytes := List Nat

/-- Byte string literal helper for ASCII text. -/
def ascii (s : String) : Bytes := s.data.map Char.toNat

/-- Character list of a Lean string literal (the writer side works on `List Char`). -/
def chars (s : String) : List Char := s.data

/-! ## A small JSON model

`J` is the value type, `render` the canonical serializer (no whitespace,
strings escaped as Go `encoding/json` does for the characters that matter:
quote, backslash, and control characters), and `parseVal` a standard
whitespace-tolerant recursive-descent parser with explicit fuel.  Numbers are
modelled as integers, which covers every number this program emits. -/

/-- JSON values. -/
inductive J where
  | null : J
  | bool (b : Bool) : J
  | num (n : Int) : J
  | str (s : List Char) : J
  | arr (xs : List J) : J
  | obj (kvs : List (List Char × J)) : J
deriving Repr, Inhabited

/-- Lower-case hex digit for a value below 16. -/
def hexDigitChar (n : Nat) : Char := if n < 10 then Char.ofNat (48 + n) else Char.ofNat (87 + n)

/-- JSON string escaping of one character: quote and backslash get a backslash
escape, control characters a `\u00XX` escape, everything else is literal. -/
def escapeChar (c : Char) : List Char :=
  if c = '"' then ['\\', '"']
  else if c = '\\' then ['\\', '\\']
  else if c.toNat < 32 then ['\\', 'u', '0', '0', hexDigitChar (c.toNat / 16), hexDigitChar (c.toNat % 16)]
  else [c]

/-- JSON string escaping of a character list. -/
def escapeStr : List Char → List Char
  | [] => []
  | c :: cs => escapeChar c ++ escapeStr cs

/-- Decimal rendering of a natural number. -/
def renderNat (n : Nat) : List Char :=
  if h : n < 10 then [Char.ofNat (48 + n)]
  else renderNat (n / 10) ++ [Char.ofNat (48 + n % 10)]
decreasing_by exact Nat.div_lt_self (by omega) (by omega)

/-- Decimal rendering of an integer. -/
def renderInt (i : Int) : List Char :=
  if i < 0 then '-' :: renderNat i.natAbs else renderNat i.natAbs

mutual

/-- Canonical (whitespace-free) serialization of a JSON value. -/
def render : J → List Char
  | .null => 'n' :: ['u', 'l', 'l']
  | .bool true => 't' :: ['r', 'u', 'e']
  | .bool false => 'f' :: ['a', 'l', 's', 'e']
  | .num i => renderInt i
  | .str s => '"' :: (escapeStr s ++ ['"'])
  | .arr xs => '[' :: (renderElems xs ++ [']'])
  | .obj kvs => '{' :: (renderFields kvs ++ ['}'])

/-- Comma-separated serialization of array elements. -/
def renderElems : List J → List Char
  | [] => []
  | [x] => render x
  | x :: y :: xs => render x ++ ',' :: renderElems (y :: xs)

/-- Comma-separated serialization of object fields. -/
def renderFields : List (List Char × J) → List Char
  | [] => []
  | [(k, v)] => '"' :: (escapeStr k ++ '"' :: ':' :: render v)
  | (k, v) :: kv :: kvs => '"' :: (escapeStr k ++ '"' :: ':' :: render v ++ ',' :: renderFields (kv :: kvs))

end

/-- JSON insignificant whitespace. -/
def isWsChar (c : Char) : Bool := c.toNat = 32 ∨ c.toNat = 10 ∨ c.toNat = 9 ∨ c.toNat = 13

/-- Skip leading JSON whitespace. -/
def skipWs : List Char → List Char
  | [] => []
  | c :: cs => if isWsChar c then skipWs cs else c :: cs

/-- Hex digit value of a character, if it is one. -/
def unhexChar (c : Char) : Option Nat :=
  if 48 ≤ c.toNat ∧ c.toNat ≤ 57 then some (c.toNat - 48)
  else if 97 ≤ c.toNat ∧ c.toNat ≤ 102 then some (c.toNat - 87)
  else if 65 ≤ c.toNat ∧ c.toNat ≤ 70 then some (c.toNat - 55)
  else none

/-- Decode a single-character JSON escape. -/
def escDecode (e : Char) : Option Char :=
  if e = '"' then some '"'
  else if e = '\\' then some '\\'
  else if e = '/' then some '/'
  else if e = 'b' then some (Char.ofNat 8)
  else if e = 'f' then some (Char.ofNat 12)
  else if e = 'n' then some '\n'
  else if e = 'r' then some (Char.ofNat 13)
  else if e = 't' then some '\t'
  else none

/-- Parse the body of a JSON string after the opening quote, returning the
decoded characters and the input after the closing quote. -/
def parseStrBody : List Char → Option (List Char × List Char)
  | [] => none
  | c :: cs =>
    if c = '"' then some ([], cs)
    else if c = '\\' then
      match cs with
      | 'u' :: h1 :: h2 :: h3 :: h4 :: cs2 =>
        match unhexChar h1, unhexChar h2, unhexChar h3, unhexChar h4 with
        | some a, some b, some x, some y =>
          (parseStrBody cs2).map (fun p => (Char.ofNat (((a * 16 + b) * 16 + x) * 16 + y) :: p.1, p.2))
        | _, _, _, _ => none
      | e :: cs2 =>
        match escDecode e with
        | some d => (parseStrBody cs2).map (fun p => (d :: p.1, p.2))
        | none => none
      | [] => none
    else if c.toNat < 32 then none
    else (parseStrBody cs).map (fun p => (c :: p.1, p.2))

/-- Accumulate decimal digits. -/
def parseDigits : List Char → Nat → Nat × List Char
  | c :: cs, acc => if c.isDigit then parseDigits cs (acc * 10 + (c.toNat - 48)) else (acc, c :: cs)
  | [], acc => (acc, [])

/-- Match a literal character sequence. -/
def expectLit : List Char → List Char → Option (List Char)
  | [], rest => some rest
  | l :: ls, c :: cs => if c = l then expectLit ls cs else none
  | _ :: _, [] => none

mutual

/-- Parse one JSON value (leading whitespace must already be consumed).
Numbers are restricted to integers, which is sound: anything this parser
accepts is valid JSON. -/
def parseVal : Nat → List Char → Option (J × List Char)
  | 0, _ => none
  | _ + 1, [] => none
  | f + 1, c :: cs =>
    if c.isDigit then
      let p := parseDigits (c :: cs) 0
      some (.num (p.1 : Int), p.2)
    else if c = '-' then
      match cs with
      | d :: cs2 =>
        if d.isDigit then
          let p := parseDigits (d :: cs2) 0
          some (.num (-(p.1 : Int)), p.2)
        else none
      | [] => none
    else if c = '"' then (parseStrBody cs).map (fun p => (.str p.1, p.2))
    else if c = '[' then
      match skipWs cs with
      | ']' :: rest => some (.arr [], rest)
      | cs2 => (parseElems f cs2).map (fun p => (.arr p.1, p.2))
    else if c = '{' then
      match skipWs cs with
      | '}' :: rest => some (.obj [], rest)
      | cs2 => (parseFields f cs2).map (fun p => (.obj p.1, p.2))
    else if c = 'n' then (expectLit ['u', 'l', 'l'] cs).map (fun rest => (.null, rest))
    else if c = 't' then (expectLit ['r', 'u', 'e'] cs).map (fun rest => (.bool true, rest))
    else if c = 'f' then (expectLit ['a', 'l', 's', 'e'] cs).map (fun rest => (.bool false, rest))
    else none

/-- Parse the elements of a non-empty JSON array up to and including the
closing bracket. -/
def parseElems : Nat → List Char → Option (List J × List Char)
  | 0, _ => none
  | f + 1, input =>
    match parseVal f input with
    | none => none
    | some (v, r) =>
      match skipWs r with
      | ',' :: r2 => (parseElems f (skipWs r2)).map (fun p => (v :: p.1, p.2))
      | ']' :: r2 => some ([v], r2)
      | _ => none

/-- Parse the fields of a non-empty JSON object up to and including the
closing brace. -/
def parseFields : Nat → List Char → Option (List (List Char × J) × List Char)
  | 0, _ => none
  | f + 1, input =>
    match input with
    | '"' :: cs =>
      match parseStrBody cs with
      | none => none
      | some (k, r) =>
        match skipWs r with
        | ':' :: r2 =>
          match parseVal f (skipWs r2) with
          | none => none
          | some (v, r3) =>
            match skipWs r3 with
            | ',' :: r4 =>
              match skipWs r4 with
              | '"' :: cs2 => (parseFields f ('"' :: cs2)).map (fun p => ((k, v) :: p.1, p.2))
              | _ => none
            | '}' :: r4 => some ([(k, v)], r4)
            | _ => none
        | _ => none
    | _ => none

end

/-- Parse a complete JSON document: one value surrounded by optional
whitespace, with nothing left over.  The fuel is sized off the input; the
round-trip theorems show it is always sufficient. -/
def parseJson (s : List Char) : Option J :=
  match parseVal (2 * s.length + 16) (skipWs s) with
  | some (v, rest) => if skipWs rest = [] then some v else none
  | none => none

/-! ## The framed-array streaming writer (`writers.go`, `HarWriter`)

The output sink is modelled as the accumulated `out : List Char`; writes to
the sink itself always succeed (a byte buffer), so the only error the model
can produce is the `already closed` guard, exactly as in the source.  Each
operation returns the new writer state together with the Go return value, so
that a failed call demonstrably writes nothing. -/

/-- Go error values, modelled by their message strings. -/
abbrev GoErr := String

/-- State of `HarWriter`: the first-entry flag, the closed flag, and the bytes
written to the underlying sink so far (preamble included). -/
structure HarWriter where
  first : Bool
  closed : Bool
  out : List Char
deriving Repr, DecidableEq

/-- Fixed part of the preamble before the creator JSON. -/
def preambleA : List Char := chars "\x7b\"log\":\x7b\"version\":\"1.2\",\"creator\":"

/-- Fixed part of the preamble after the creator JSON. -/
def preambleB : List Char := chars ",\"entries\":[\n"

/-- Entry separator written before every entry but the first. -/
def entrySep : List Char := chars ",\n"

/-- Closing framing written by `Close`. -/
def postamble : List Char := chars "\n]\x7d\x7d"

/-- Model of `NewHarWriter`: emits the preamble (three writes) around the
marshalled creator and starts with `first = true`.  The creator's JSON value
is a parameter; `json.Marshal` of the creator struct is modelled as `render`
of that value. -/
def NewHarWriter (creator : J) : HarWriter :=
  { first := true, closed := false, out := preambleA ++ render creator ++ preambleB }

/-- Model of `HarWriter.WriteEntry`: error if closed; otherwise write the
`",\n"` separator unless this is the first entry, clear the first flag, and
write the entry bytes. -/
def HarWriter.WriteEntry (w : HarWriter) (entry : List Char) : HarWriter × Except GoErr Unit :=
  if w.closed then (w, .error "HarWriter already closed")
  else
    let w2 := { w with first := false, out := w.out ++ (if w.first then [] else entrySep) ++ entry }
    (w2, .ok ())

/-- Model of `HarWriter.Close`: error if closed; otherwise mark closed and
write the closing framing. -/
def HarWriter.Close (w : HarWriter) : HarWriter × Except GoErr Unit :=
  if w.closed then (w, .error "HarWriter already closed")
  else ({ w with closed := true, out := w.out ++ postamble }, .ok ())

/-- Run a sequence of `WriteEntry` calls, stopping at the first error. -/
def writeAll (w : HarWriter) : List (List Char) → HarWriter × Except GoErr Unit
  | [] => (w, .ok ())
  | e :: es =>
    match w.WriteEntry e with
    | (w2, .ok ()) => writeAll w2 es
    | (w2, .error msg) => (w2, .error msg)

/-- Entries after the first, each preceded by the `",\n"` separator. -/
def sepTail : List (List Char) → List Char
  | [] => []
  | e :: es => entrySep ++ e ++ sepTail es

/-- Entries joined by the `",\n"` separator. -/
def sepJoin : List (List Char) → List Char
  | [] => []
  | e :: es => e ++ sepTail es

/-- The full framed-array document for a creator value and a list of entry
texts: preamble, `",\n"`-separated entries, postamble. -/
def framedDoc (creator : J) (entries : List (List Char)) : List Char :=
  preambleA ++ render creator ++ preambleB ++ sepJoin entries ++ postamble

/-- The JSON value the framed-array document denotes. -/
def logJ (creator : J) (vs : List J) : J :=
  .obj [(chars "log", .obj [(chars "version", .str (chars "1.2")),
                            (chars "creator", creator),
                            (chars "entries", .arr vs)])]

mutual

/-- Fuel sufficient for `parseVal` on the rendering of a value. -/
def Jfuel : J → Nat
  | .arr xs => 1 + JfuelElems xs
  | .obj kvs => 1 + JfuelFields kvs
  | _ => 1

/-- Fuel sufficient for `parseElems` on rendered elements. -/
def JfuelElems : List J → Nat
  | [] => 1
  | x :: xs => 1 + Jfuel x + JfuelElems xs

/-- Fuel sufficient for `parseFields` on rendered fields. -/
def JfuelFields : List (List Char × J) → Nat
  | [] => 1
  | kv :: kvs => 1 + Jfuel kv.2 + JfuelFields kvs

end

/-! ## Go standard-library collaborators

`mime.ParseMediaType`, `url.ParseQuery` and `base64.StdEncoding` are external
utilities the round tripper relies on; they are modelled concretely below,
faithful to their Go sources on the media-type/query grammar (RFC 2231
parameter continuations and the exact text of `url.EscapeError` messages are
not reproduced).  Multipart body parsing (`multipart.Reader.ReadForm`) is
injected as a function parameter, like the inner transport itself. -/

/-- ASCII space characters as `unicode.IsSpace` sees them in header values. -/
def isSpaceB (b : Nat) : Bool := b = 32 ∨ b = 9 ∨ b = 10 ∨ b = 13 ∨ b = 11 ∨ b = 12

/-- Trim leading spaces. -/
def trimLeftB : Bytes → Bytes
  | [] => []
  | b :: bs => if isSpaceB b then trimLeftB bs else b :: bs

/-- Trim trailing spaces. -/
def trimRightB (bs : Bytes) : Bytes := (trimLeftB bs.reverse).reverse

/-- Model of `strings.TrimSpace`. -/
def trimSpaceB (bs : Bytes) : Bytes := trimRightB (trimLeftB bs)

/-- Model of `strings.ToLower` for ASCII. -/
def toLowerB (bs : Bytes) : Bytes := bs.map (fun b => if 65 ≤ b ∧ b ≤ 90 then b + 32 else b)

/-- The `tspecial` byte set of RFC 1521 as used by `mime`. -/
def isTSpecialB (b : Nat) : Bool := (ascii "()<>@,;:\\\"/[]?=").contains b

/-- Model of `mime` token characters: printable ASCII that is not a tspecial. -/
def isTokenCharB (b : Nat) : Bool := 32 < b && b < 127 && !isTSpecialB b

/-- Consume a leading token. -/
def consumeTokenB (bs : Bytes) : Bytes × Bytes := (bs.takeWhile isTokenCharB, bs.dropWhile isTokenCharB)

/-- Model of `mime.checkMediaTypeDisposition`: `token` or `token/token`,
consuming the whole string. -/
def checkMediaTypeDisposition (mt : Bytes) : Except GoErr Unit :=
  let p := consumeTokenB mt
  if p.1 = [] then .error "mime: no media type"
  else
    match p.2 with
    | [] => .ok ()
    | 47 :: rest2 =>
      let q := consumeTokenB rest2
      if q.1 = [] then .error "mime: expected token after slash"
      else if q.2 = [] then .ok ()
      else .error "mime: unexpected content after media subtype"
    | _ => .error "mime: expected slash after first token"

/-- Quoted-string body of a media parameter value, after the opening quote,
with the MSIE unescaped-backslash tolerance of the Go source. -/
def consumeQuoted : Bytes → Option (Bytes × Bytes)
  | [] => none
  | b :: rest =>
    if b = 34 then some ([], rest)
    else if b = 13 ∨ b = 10 then none
    else if b = 92 then
      match rest with
      | c :: rest2 =>
        if isTSpecialB c then (consumeQuoted rest2).map (fun p => (c :: p.1, p.2))
        else if c = 13 ∨ c = 10 then none
        else (consumeQuoted rest2).map (fun p => (92 :: c :: p.1, p.2))
      | [] => none
    else (consumeQuoted rest).map (fun p => (b :: p.1, p.2))

/-- Model of `mime.consumeValue`: a token or a quoted string. -/
def consumeValueB (v : Bytes) : Option (Bytes × Bytes) :=
  match v with
  | 34 :: rest => consumeQuoted rest
  | _ =>
    let p := consumeTokenB v
    if p.1 = [] then none else some p

/-- Model of `mime.consumeMediaParam`: `;` `key` `=` `value` with optional
spaces, the key lower-cased.  `none` models Go's empty-key failure return. -/
def consumeMediaParam (v : Bytes) : Option (Bytes × Bytes × Bytes) :=
  match trimLeftB v with
  | 59 :: r2 =>
    let p := consumeTokenB (trimLeftB r2)
    if p.1 = [] then none
    else
      match trimLeftB p.2 with
      | 61 :: r6 =>
        match consumeValueB (trimLeftB r6) with
        | some q => some (toLowerB p.1, q.1, q.2)
        | none => none
      | _ => none
  | _ => none

/-- Parameter loop of `mime.ParseMediaType`: trailing semicolons are ignored,
any other malformed parameter or a duplicate name is an error.  The fuel is
sized by the caller; each successful step consumes at least one byte. -/
def parseParamsLoop : Nat → Bytes → Except GoErr (List (Bytes × Bytes))
  | 0, _ => .error "mime: invalid media parameter"
  | fuel + 1, v =>
    let v1 := trimLeftB v
    if v1 = [] then .ok []
    else
      match consumeMediaParam v1 with
      | none => if trimSpaceB v1 = [59] then .ok [] else .error "mime: invalid media parameter"
      | some (key, value, rest) =>
        match parseParamsLoop fuel rest with
        | .error e => .error e
        | .ok ps =>
          if ps.any (fun p => p.1 = key) then .error "mime: duplicate parameter name"
          else .ok ((key, value) :: ps)

/-- Model of `mime.ParseMediaType`: cut at the first `;`, trim and lower-case
the base type, validate it, then parse the parameters. -/
def parseMediaType (v : Bytes) : Except GoErr (Bytes × List (Bytes × Bytes)) :=
  let base := v.takeWhile (fun b => b ≠ 59)
  let mediatype := toLowerB (trimSpaceB base)
  match checkMediaTypeDisposition mediatype with
  | .error e => .error e
  | .ok _ =>
    match parseParamsLoop (v.length + 1) (v.drop base.length) with
    | .error e => .error e
    | .ok ps => .ok (mediatype, ps)

/-- Hex digit value of a byte. -/
def unhexB (b : Nat) : Option Nat :=
  if 48 ≤ b ∧ b ≤ 57 then some (b - 48)
  else if 97 ≤ b ∧ b ≤ 102 then some (b - 87)
  else if 65 ≤ b ∧ b ≤ 70 then some (b - 55)
  else none

/-- Model of `url.QueryUnescape`: `%XX` decodes, `+` becomes space, a bad or
short percent escape is an error. -/
def queryUnescapeB : Bytes → Except GoErr Bytes
  | [] => .ok []
  | 37 :: rest =>
    match rest with
    | h1 :: h2 :: rest2 =>
      match unhexB h1, unhexB h2 with
      | some a, some b => (queryUnescapeB rest2).map (fun bs => (a * 16 + b) :: bs)
      | _, _ => .error "invalid URL escape"
    | _ => .error "invalid URL escape"
  | 43 :: rest => (queryUnescapeB rest).map (fun bs => 32 :: bs)
  | b :: rest => (queryUnescapeB rest).map (fun bs => b :: bs)

/-- Model of `strings.Cut` on one byte: text before the separator, and the
text after it (empty when the separator is absent). -/
def cutB (sep : Nat) (bs : Bytes) : Bytes × Bytes :=
  (bs.takeWhile (fun b => b ≠ sep), (bs.dropWhile (fun b => b ≠ sep)).tail)

/-- Model of `url.ParseQuery` as the round tripper consumes it: pairs split on
`&`, a segment containing `;` or failing to unescape is an error (Go records
the first error and keeps parsing, but its caller here discards the partial
values whenever the error is non-nil, so the error short-circuit is
equivalent). -/
def parseQueryF : Nat → Bytes → Except GoErr (List (Bytes × Bytes))
  | 0, _ => .error "invalid URL escape"
  | fuel + 1, query =>
    if query = [] then .ok []
    else
      let key := (cutB 38 query).1
      let rest := (cutB 38 query).2
      if key.contains 59 then .error "invalid semicolon separator in query"
      else if key = [] then parseQueryF fuel rest
      else
        let kv := cutB 61 key
        match queryUnescapeB kv.1, queryUnescapeB kv.2 with
        | .ok k2, .ok v2 => (parseQueryF fuel rest).map (fun ps => (k2, v2) :: ps)
        | .error e, _ => .error e
        | _, .error e => .error e

/-- Model of `url.ParseQuery`; the fuel never runs out because each step of
the loop consumes at least one byte of the query. -/
def parseQuery (query : Bytes) : Except GoErr (List (Bytes × Bytes)) :=
  parseQueryF (query.length + 1) query

def parseQueryLaxF : Nat → Bytes → List (Bytes × Bytes)
  | 0, _ => []
  | fuel + 1, query =>
    if query = [] then []
    else
      let key := (cutB 38 query).1
      let rest := (cutB 38 query).2
      if key.contains 59 then parseQueryLaxF fuel rest
      else if key = [] then parseQueryLaxF fuel rest
      else
        let kv := cutB 61 key
        match queryUnescapeB kv.1, queryUnescapeB kv.2 with
        | .ok k2, .ok v2 => (k2, v2) :: parseQueryLaxF fuel rest
        | _, _ => parseQueryLaxF fuel rest

/-- Error-ignoring query parse, as `url.URL.Query` uses: bad pairs are
skipped. -/
def parseQueryLax (query : Bytes) : List (Bytes × Bytes) :=
  parseQueryLaxF (query.length + 1) query

/-- Standard base64 alphabet, as byte values. -/
def b64Char (n : Nat) : Nat :=
  if n < 26 then 65 + n
  else if n < 52 then 97 + (n - 26)
  else if n < 62 then 48 + (n - 52)
  else if n = 62 then 43
  else 47

/-- Model of `base64.StdEncoding.EncodeToString`: 3-byte groups become four
alphabet bytes, a 2-byte tail three plus `=`, a 1-byte tail two plus `==`. -/
def base64Encode : Bytes → Bytes
  | b0 :: b1 :: b2 :: rest =>
    b64Char (b0 / 4) :: b64Char (b0 % 4 * 16 + b1 / 16) ::
      b64Char (b1 % 16 * 4 + b2 / 64) :: b64Char (b2 % 64) :: base64Encode rest
  | [b0, b1] => [b64Char (b0 / 4), b64Char (b0 % 4 * 16 + b1 / 16), b64Char (b1 % 16 * 4), 61]
  | [b0] => [b64Char (b0 / 4), b64Char (b0 % 4 * 16), 61, 61]
  | [] => []

/-! ## HAR data model

Modelled from the spec: the static data-shape declarations (`Entry`,
`Request`, `Response`, `PostData`, `Param`, `NVP`, `Content`, `Timings`,
`Creator`, and the `clientTracer` timestamps) live in a repository file that
is not under `src/`; the structures below follow §3 of the spec and the field
uses visible in `round_tripper.go`.  Cookie parsing is not modelled (no claim
mentions cookies). -/

/-- HAR name/value pair. -/
structure NVP where
  name : Bytes
  value : Bytes
deriving Repr, DecidableEq

/-- HAR form parameter. -/
structure Param where
  name : Bytes
  value : Bytes
  fileName : Bytes
  contentType : Bytes
deriving Repr, DecidableEq

/-- HAR request body record. -/
structure PostData where
  mimeType : Bytes
  params : List Param
  text : Bytes
deriving Repr, DecidableEq

/-- HAR request record (cookie list omitted; see section comment). -/
structure RequestEntry where
  method : Bytes
  url : Bytes
  httpVersion : Bytes
  headers : List NVP
  queryString : List NVP
  postData : Option PostData
  headersSize : Int
  bodySize : Int
deriving Repr, DecidableEq

/-- HAR response body container. -/
structure Content where
  size : Int
  compression : Int
  mimeType : Bytes
  text : Bytes
  encoding : Bytes
deriving Repr, DecidableEq

/-- HAR response record (cookie list omitted; see section comment). -/
structure ResponseEntry where
  status : Nat
  statusText : Bytes
  httpVersion : Bytes
  headers : List NVP
  redirectURL : Bytes
  headersSize : Int
  bodySize : Int
  content : Content
deriving Repr, DecidableEq

/-- HAR per-phase timings, durations as integers with `-1` the "not measured"
sentinel. -/
structure Timings where
  blocked : Int
  dns : Int
  connect : Int
  send : Int
  wait : Int
  receive : Int
  ssl : Int
deriving Repr, DecidableEq

/-- HAR entry: one exchange. -/
structure Entry where
  startedDateTime : Nat
  time : Int
  request : Option RequestEntry
  response : Option ResponseEntry
  timings : Option Timings
deriving Repr, DecidableEq

/-! ## HTTP request/response and the timing tracer -/

/-- An outbound `http.Request` as the round tripper consumes it.  The body is
the fully materialized byte content (`GetBody` hands back a fresh copy of the
same bytes). -/
structure HttpRequest where
  method : Bytes
  url : Bytes
  rawQuery : Bytes
  proto : Bytes
  header : List (Bytes × Bytes)
  body : Option Bytes
deriving Repr, DecidableEq

/-- An `http.Response`.  `bodyReplayed` is a ghost flag recording that the
original body stream has been drained and replaced by an in-memory buffer of
the same bytes. -/
structure HttpResponse where
  statusCode : Nat
  status : Bytes
  proto : Bytes
  header : List (Bytes × Bytes)
  contentLength : Int
  body : Bytes
  bodyReplayed : Bool
deriving Repr, DecidableEq

/-- Model of `http.Header.Get`: first value for the key, empty when absent
(keys are stored in canonical form, so lookup is exact). -/
def headerGet (h : List (Bytes × Bytes)) (key : Bytes) : Bytes :=
  match h.find? (fun p => p.1 == key) with
  | some p => p.2
  | none => []

/-- Modelled from the spec: the `clientTracer` timestamps (declared outside
`src/`).  Monotonic timestamps as naturals, with `0` playing Go's zero
`time.Time` ("phase not observed", `IsZero`). -/
structure ClientTrace where
  startAt : Nat
  endAt : Nat
  dnsStart : Nat
  dnsEnd : Nat
  connStart : Nat
  connObtained : Nat
  tlsHandshakeStart : Nat
  tlsHandshakeEnd : Nat
  writeRequest : Nat
  firstResponseByte : Nat
deriving Repr, DecidableEq

/-- The timings computation at the end of `postRoundTrip`: blocked, send,
wait and receive are unconditional differences; DNS, connect and SSL default
to the `-1` sentinel and are filled in only when the phase's start timestamp
is non-zero. -/
def computeTimings (t : ClientTrace) : Timings :=
  let t0 : Timings :=
    { blocked := (t.connStart : Int) - (t.startAt : Int)
      dns := -1
      connect := -1
      send := (t.writeRequest : Int) - (t.connObtained : Int)
      wait := (t.firstResponseByte : Int) - (t.writeRequest : Int)
      receive := (t.endAt : Int) - (t.firstResponseByte : Int)
      ssl := -1 }
  let t1 := if t.dnsStart ≠ 0 then { t0 with dns := (t.dnsEnd : Int) - (t.dnsStart : Int) } else t0
  let t2 := if t.connStart ≠ 0 then { t1 with connect := (t.connObtained : Int) - (t.connStart : Int) } else t1
  if t.tlsHandshakeStart ≠ 0 then { t2 with ssl := (t.tlsHandshakeEnd : Int) - (t.tlsHandshakeStart : Int) } else t2

/-- Modelled from the spec: well-formedness of a completed trace for a
conforming transport (§4.2): the always-observed phase timestamps are set and
ordered along the exchange, and each optional phase that was observed has an
end no earlier than its start (with both endpoints set or both zero). -/
def ClientTrace.WellFormed (t : ClientTrace) (now : Nat) : Prop :=
  0 < t.startAt ∧ t.startAt ≤ t.connStart ∧ t.connStart ≤ t.connObtained ∧
    t.connObtained ≤ t.writeRequest ∧ t.writeRequest ≤ t.firstResponseByte ∧
    t.firstResponseByte ≤ now ∧
    (t.dnsStart ≠ 0 → t.dnsStart ≤ t.dnsEnd) ∧
    (t.tlsHandshakeStart ≠ 0 → t.tlsHandshakeStart ≤ t.tlsHandshakeEnd)

/-! ## The round tripper (`round_tripper.go`) -/

/-- A decoded `multipart.Form`: scalar values and file parts. -/
structure FileHeaderM where
  filename : Bytes
  contentType : Bytes
deriving Repr, DecidableEq

/-- The value and file parts of a parsed multipart form. -/
structure MultipartForm where
  value : List (Bytes × Bytes)
  file : List (Bytes × FileHeaderM)
deriving Repr, DecidableEq

/-- Look up a media-type parameter. -/
def lookupParam (ps : List (Bytes × Bytes)) (key : Bytes) : Option Bytes :=
  (ps.find? (fun p => p.1 == key)).map (fun p => p.2)

/-- Model of `http.Request.ParseForm` as reached from the urlencoded branch:
for POST/PUT/PATCH the body parses as a query string into `PostForm` (other
methods leave it empty), and the URL's raw query must also parse; the body
error takes precedence.  The 10 MB form-size cap is not modelled. -/
def ParseForm (r : HttpRequest) (bodyBytes : Bytes) : Except GoErr (List (Bytes × Bytes)) :=
  let postRes : Except GoErr (List (Bytes × Bytes)) :=
    if r.method = ascii "POST" ∨ r.method = ascii "PUT" ∨ r.method = ascii "PATCH" then
      parseQuery bodyBytes
    else .ok []
  match postRes with
  | .error e => .error e
  | .ok pf =>
    match parseQuery r.rawQuery with
    | .error e => .error e
    | .ok _ => .ok pf

/-- Request side of the HAR record, as `preRoundTrip` assigns it. -/
def mkRequestEntry (r : HttpRequest) (pd : Option PostData) (bodySize : Int) : RequestEntry :=
  { method := r.method
    url := r.url
    httpVersion := r.proto
    headers := r.header.map (fun p => { name := p.1, value := p.2 })
    queryString := (parseQueryLax r.rawQuery).map (fun p => { name := p.1, value := p.2 })
    postData := pd
    headersSize := -1
    bodySize := bodySize }

/-- Model of `RoundTripper.preRoundTrip`.  A `none` body yields body size `-1`
and no `PostData`.  Otherwise the body bytes are read (from `GetBody`'s fresh
copy), the Content-Type header must parse, urlencoded and multipart bodies
are decoded into params (errors wrapped and propagated; `ParseForm` consumes
the live body stream, so those branches re-materialize `r.Body` from the
buffered bytes), and any other media type keeps the body as opaque text.
`mpParse` injects `multipart.Reader.ReadForm` (boundary, body bytes); inside
`ParseMultipartForm` Go first runs `ParseForm`, which can only fail here on
the URL query. -/
def preRoundTrip (mpParse : Bytes → Bytes → Except GoErr MultipartForm) (r : HttpRequest) :
    Except GoErr (HttpRequest × RequestEntry) :=
  match r.body with
  | none => .ok (r, mkRequestEntry r none (-1))
  | some bodyBytes =>
    let bodySize : Int := bodyBytes.length
    let mimeType := headerGet r.header (ascii "Content-Type")
    let pd : PostData := { mimeType := mimeType, params := [], text := bodyBytes }
    match parseMediaType mimeType with
    | .error e => .error ("parsing request Content-Type: " ++ e)
    | .ok (mediaType, ctParams) =>
      if mediaType = ascii "application/x-www-form-urlencoded" then
        match ParseForm r bodyBytes with
        | .error e => .error ("parsing urlencoded form in request body: " ++ e)
        | .ok postForm =>
          let r2 := { r with body := some bodyBytes }
          let ps : List Param :=
            postForm.map (fun kv => { name := kv.1, value := kv.2, fileName := [], contentType := [] })
          .ok (r2, mkRequestEntry r2 (some { pd with params := ps }) bodySize)
      else if mediaType = ascii "multipart/form-data" then
        let mpRes : Except GoErr MultipartForm :=
          match parseQuery r.rawQuery with
          | .error e => .error e
          | .ok _ =>
            match lookupParam ctParams (ascii "boundary") with
            | none => .error "no multipart boundary param in Content-Type"
            | some boundary => mpParse boundary bodyBytes
        match mpRes with
        | .error e => .error ("parsing multipart form in request body: " ++ e)
        | .ok mf =>
          let r2 := { r with body := some bodyBytes }
          let psV : List Param :=
            mf.value.map (fun kv => { name := kv.1, value := kv.2, fileName := [], contentType := [] })
          let psF : List Param :=
            mf.file.map (fun kf =>
              { name := kf.1, value := [], fileName := kf.2.filename, contentType := kf.2.contentType })
          .ok (r2, mkRequestEntry r2 (some { pd with params := psV ++ psF }) bodySize)
      else .ok (r, mkRequestEntry r (some pd) bodySize)

/-- The timings `postRoundTrip` stores for an exchange whose trace is `t` and
whose wall clock at post-capture time reads `now` (the source assigns
`trace.endAt = time.Now()` and then derives the per-phase durations). -/
def exchangeTimings (t : ClientTrace) (now : Nat) : Timings :=
  computeTimings { t with endAt := now }

/-- Response side of the HAR record, as `postRoundTrip` assigns it: `text/…`
media types store the body verbatim with no encoding marker, every other
media type stores the standard base64 encoding of the body and marks it. -/
def mkResponseEntry (resp : HttpResponse) (mediaType mimeType : Bytes) : ResponseEntry :=
  let textEnc : Bytes × Bytes :=
    if (ascii "text/").isPrefixOf mediaType then (resp.body, [])
    else (base64Encode resp.body, ascii "base64")
  { status := resp.statusCode
    statusText := resp.status
    httpVersion := resp.proto
    headers := resp.header.map (fun p => { name := p.1, value := p.2 })
    redirectURL := headerGet resp.header (ascii "Location")
    headersSize := -1
    bodySize := resp.contentLength
    content :=
      { size := resp.contentLength
        compression := 0
        mimeType := mimeType
        text := textEnc.1
        encoding := textEnc.2 } }

/-- Model of `RoundTripper.postRoundTrip`.  The response body is drained and
replaced by an in-memory copy of the same bytes before anything can fail;
then the response Content-Type must parse; the content is stored per
`mkResponseEntry`.  Returns the mutated response together with either the
error or the response record, start time, total time and timings (`now` is
the wall clock read for `trace.endAt`). -/
def postRoundTrip (resp : HttpResponse) (trace : ClientTrace) (now : Nat) :
    HttpResponse × Except GoErr (ResponseEntry × Nat × Int × Timings) :=
  let resp2 := { resp with bodyReplayed := true }
  let mimeType := headerGet resp.header (ascii "Content-Type")
  match parseMediaType mimeType with
  | .error e => (resp2, .error ("parsing response Content-Type: " ++ e))
  | .ok (mediaType, _) =>
    (resp2, .ok (mkResponseEntry resp mediaType mimeType, trace.startAt,
                 (now : Int) - (trace.startAt : Int), exchangeTimings trace now))

/-- State the `RoundTripper` threads through `writeEntry`: the first-entry
flag and the bytes written to the sink (after the preamble). -/
structure RTState where
  first : Bool
  out : List Char
deriving Repr, DecidableEq

/-- Model of `RoundTripper.writeEntry`: the marshalled entry goes through the
rewrite hook; a `none` result suppresses the write and succeeds; otherwise
the `",\n"` separator (for every entry after the first) and the returned
bytes are written verbatim.  Sink writes themselves succeed (a buffer). -/
def writeEntry (rewrite : HttpRequest → HttpResponse → List Char → Option (List Char))
    (st : RTState) (request : HttpRequest) (response : HttpResponse) (entryJson : List Char) :
    RTState × Except GoErr Unit :=
  match rewrite request response entryJson with
  | none => (st, .ok ())
  | some bs => ({ first := false, out := st.out ++ (if st.first then [] else entrySep) ++ bs }, .ok ())

/-- Result of one `RoundTrip` call: the returned response and error, the final
writer state, and a ghost flag recording whether the inner transport was
invoked. -/
structure RTOutcome where
  response : Option HttpResponse
  err : Option GoErr
  innerCalled : Bool
  st : RTState
deriving Repr, DecidableEq

/-- Model of `RoundTripper.RoundTrip`.  `inner` is the wrapped transport,
`rewrite` the entry hook, `marshal` stands for `json.Marshal` of an entry,
`mpParse` the multipart reader, `trace`/`now` the timestamps the tracer
recorded for this exchange.  Pre-capture failure returns the error with the
transport never invoked; a transport error is returned unchanged; a
post-capture failure returns both the error and the (drained-and-replayed)
response; otherwise the entry is written subject to the rewrite hook. -/
def RoundTrip (inner : HttpRequest → Except GoErr HttpResponse)
    (rewrite : HttpRequest → HttpResponse → List Char → Option (List Char))
    (marshal : Entry → List Char)
    (mpParse : Bytes → Bytes → Except GoErr MultipartForm)
    (trace : ClientTrace) (now : Nat)
    (st : RTState) (request : HttpRequest) : RTOutcome :=
  match preRoundTrip mpParse request with
  | .error e => { response := none, err := some e, innerCalled := false, st := st }
  | .ok (request2, reqEntry) =>
    match inner request2 with
    | .error e => { response := none, err := some e, innerCalled := true, st := st }
    | .ok response =>
      match postRoundTrip response trace now with
      | (response2, .error e) => { response := some response2, err := some e, innerCalled := true, st := st }
      | (response2, .ok (respEntry, started, time, timings)) =>
        let entry : Entry :=
          { startedDateTime := started, time := time,
            request := some reqEntry, response := some respEntry, timings := some timings }
        match writeEntry rewrite st request2 response2 (marshal entry) with
        | (st2, .ok _) => { response := some response2, err := none, innerCalled := true, st := st2 }
        | (st2, .error e) => { response := some response2, err := some e, innerCalled := true, st := st2 }

/-- A list whose head, if any, is not a digit: appending such a tail to a
rendered number cannot extend the number. -/
def headOkB : List Char → Bool
  | [] => true
  | c :: _ => !c.isDigit

/-! ## Concrete fixtures used by the witness theorems -/

/-- A multipart reader stub for exercising paths that never reach it. -/
def mp0 : Bytes → Bytes → Except GoErr MultipartForm := fun _ _ => .error "multipart: NextPart: EOF"

/-- A marshaller stub standing in for `json.Marshal` of an entry. -/
def marshal0 : Entry → List Char := fun _ => chars "\x7b\x7d"

/-- A rewrite hook that suppresses empty entries and passes others through. -/
def rwIfEmpty : HttpRequest → HttpResponse → List Char → Option (List Char) :=
  fun _ _ ej => if ej = [] then none else some ej

/-- A GET request with no body. -/
def req0 : HttpRequest :=
  { method := ascii "GET", url := ascii "https://example.com", rawQuery := [],
    proto := ascii "HTTP/1.1", header := [], body := none }

/-- A request whose Content-Type is malformed (`application/`). -/
def reqBadCT : HttpRequest :=
  { method := ascii "POST", url := ascii "https://example.com", rawQuery := [],
    proto := ascii "HTTP/1.1",
    header := [(ascii "Content-Type", ascii "application/")],
    body := some (ascii "x") }

/-- A urlencoded request whose body has a malformed percent escape. -/
def reqBadForm : HttpRequest :=
  { method := ascii "POST", url := ascii "https://example.com", rawQuery := [],
    proto := ascii "HTTP/1.1",
    header := [(ascii "Content-Type", ascii "application/x-www-form-urlencoded")],
    body := some (ascii "a=%zz") }

/-- A request with a body but no Content-Type header at all. -/
def reqNoCT : HttpRequest :=
  { method := ascii "POST", url := ascii "https://example.com", rawQuery := [],
    proto := ascii "HTTP/1.1", header := [], body := some (ascii "x") }

/-- A urlencoded POST with body `a=b&c=d`. -/
def reqForm : HttpRequest :=
  { method := ascii "POST", url := ascii "https://example.com/submit", rawQuery := [],
    proto := ascii "HTTP/1.1",
    header := [(ascii "Content-Type", ascii "application/x-www-form-urlencoded")],
    body := some (ascii "a=b&c=d") }

/-- A `text/plain` response with body `hello`. -/
def respText : HttpResponse :=
  { statusCode := 200, status := ascii "200 OK", proto := ascii "HTTP/1.1",
    header := [(ascii "Content-Type", ascii "text/plain")],
    contentLength := 5, body := ascii "hello", bodyReplayed := false }

/-- An `application/octet-stream` response with a binary body. -/
def respBin : HttpResponse :=
  { statusCode := 200, status := ascii "200 OK", proto := ascii "HTTP/1.1",
    header := [(ascii "Content-Type", ascii "application/octet-stream")],
    contentLength := 3, body := [0, 1, 254], bodyReplayed := false }

/-- A response with no Content-Type header. -/
def respNoCT : HttpResponse :=
  { statusCode := 204, status := ascii "204 No Content", proto := ascii "HTTP/1.1",
    header := [], contentLength := 0, body := ascii "z", bodyReplayed := false }

/-- A trace for an exchange that performed DNS but reused no TLS. -/
def trace0 : ClientTrace :=
  { startAt := 5, endAt := 0, dnsStart := 6, dnsEnd := 8, connStart := 6, connObtained := 9,
    tlsHandshakeStart := 0, tlsHandshakeEnd := 0, writeRequest := 12, firstResponseByte := 20 }

/-- A fresh writer state. -/
def st0 : RTState := { first := true, out := [] }

/-- An inner transport that fails with a DNS error. -/
def innerFail : HttpRequest → Except GoErr HttpResponse :=
  fun _ => .error "dial tcp: lookup example.invalid: no such host"

/-- An inner transport returning the `text/plain` response. -/
def innerText : HttpRequest → Except GoErr HttpResponse := fun _ => .ok respText

/-- An inner transport returning the response without a Content-Type. -/
def innerNoCT : HttpRequest → Except GoErr HttpResponse := fun _ => .ok respNoCT

/-! ## Theorems -/

/-- C2: for the framed-array writer, after a successful `Close`, a second
`Close` returns the already-closed error with the writer (and hence the sink
bytes) unchanged, and `WriteEntry` after `Close` likewise returns the error
and writes nothing further. -/
theorem close_twice_and_write_after_close_error (w : HarWriter) (e : List Char)
    (h : w.closed = false) :
    w.Close.2 = .ok () ∧
    w.Close.1.Close.2 = .error "HarWriter already closed" ∧
    w.Close.1.Close.1 = w.Close.1 ∧
    (w.Close.1.WriteEntry e).2 = .error "HarWriter already closed" ∧
    (w.Close.1.WriteEntry e).1 = w.Close.1 := by
  simp [HarWriter.Close, HarWriter.WriteEntry, h]

/-- Witness for C2: a freshly constructed writer, closed once, rejects a
second close and a subsequent entry write without further output. -/
theorem close_twice_and_write_after_close_error_witness :
    (NewHarWriter (J.obj [])).Close.2 = .ok () ∧
    (NewHarWriter (J.obj [])).Close.1.Close.2 = .error "HarWriter already closed" ∧
    (NewHarWriter (J.obj [])).Close.1.Close.1 = (NewHarWriter (J.obj [])).Close.1 ∧
    ((NewHarWriter (J.obj [])).Close.1.WriteEntry (chars "e")).2 =
      .error "HarWriter already closed" ∧
    ((NewHarWriter (J.obj [])).Close.1.WriteEntry (chars "e")).1 =
      (NewHarWriter (J.obj [])).Close.1 :=
  close_twice_and_write_after_close_error (NewHarWriter (J.obj [])) (chars "e") rfl

/-- C3: when pre-capture succeeds and the inner transport fails, `RoundTrip`
returns exactly the transport's error, no response, and leaves the writer
state (first-entry flag and sink bytes) untouched. -/
theorem roundTrip_transport_error_propagates
    (inner : HttpRequest → Except GoErr HttpResponse)
    (rewrite : HttpRequest → HttpResponse → List Char → Option (List Char))
    (marshal : Entry → List Char) (mpParse : Bytes → Bytes → Except GoErr MultipartForm)
    (trace : ClientTrace) (now : Nat) (st : RTState) (request r2 : HttpRequest)
    (re : RequestEntry) (e : GoErr)
    (hpre : preRoundTrip mpParse request = .ok (r2, re))
    (hinner : inner r2 = .error e) :
    RoundTrip inner rewrite marshal mpParse trace now st request =
      { response := none, err := some e, innerCalled := true, st := st } := by
  simp [RoundTrip, hpre, hinner]

/-- Witness for C3: a DNS failure comes back word for word, with the writer
state unchanged. -/
theorem roundTrip_transport_error_propagates_witness :
    RoundTrip innerFail rwIfEmpty marshal0 mp0 trace0 30 st0 req0 =
      { response := none, err := some "dial tcp: lookup example.invalid: no such host",
        innerCalled := true, st := st0 } :=
  roundTrip_transport_error_propagates innerFail rwIfEmpty marshal0 mp0 trace0 30 st0
    req0 req0 (mkRequestEntry req0 none (-1)) _ rfl rfl

/-- C4: when pre-capture decoding fails (malformed media type or malformed
urlencoded/multipart body), `RoundTrip` returns that error, never invokes
the inner transport, and writes nothing. -/
theorem roundTrip_decode_failure_aborts
    (inner : HttpRequest → Except GoErr HttpResponse)
    (rewrite : HttpRequest → HttpResponse → List Char → Option (List Char))
    (marshal : Entry → List Char) (mpParse : Bytes → Bytes → Except GoErr MultipartForm)
    (trace : ClientTrace) (now : Nat) (st : RTState) (request : HttpRequest) (e : GoErr)
    (hpre : preRoundTrip mpParse request = .error e) :
    RoundTrip inner rewrite marshal mpParse trace now st request =
      { response := none, err := some e, innerCalled := false, st := st } := by
  simp [RoundTrip, hpre]

/-- Witness for C4: a malformed media type and a malformed urlencoded body
each abort the exchange before the transport, with the wrapped mime/url
error. -/
theorem roundTrip_decode_failure_aborts_witness :
    preRoundTrip mp0 reqBadCT =
      .error "parsing request Content-Type: mime: expected token after slash" ∧
    RoundTrip innerFail rwIfEmpty marshal0 mp0 trace0 30 st0 reqBadCT =
      { response := none,
        err := some "parsing request Content-Type: mime: expected token after slash",
        innerCalled := false, st := st0 } ∧
    preRoundTrip mp0 reqBadForm =
      .error "parsing urlencoded form in request body: invalid URL escape" ∧
    RoundTrip innerFail rwIfEmpty marshal0 mp0 trace0 30 st0 reqBadForm =
      { response := none,
        err := some "parsing urlencoded form in request body: invalid URL escape",
        innerCalled := false, st := st0 } :=
  ⟨rfl,
   roundTrip_decode_failure_aborts innerFail rwIfEmpty marshal0 mp0 trace0 30 st0 reqBadCT _ rfl,
   rfl,
   roundTrip_decode_failure_aborts innerFail rwIfEmpty marshal0 mp0 trace0 30 st0 reqBadForm _ rfl⟩

/-- C9: a request carrying a body but no Content-Type header at all fails
pre-capture with the mime no-media-type error (wrapped), the inner transport
is never invoked, and nothing is written — the body is not stored as opaque
text. -/
theorem roundTrip_body_without_content_type_errors
    (inner : HttpRequest → Except GoErr HttpResponse)
    (rewrite : HttpRequest → HttpResponse → List Char → Option (List Char))
    (marshal : Entry → List Char) (mpParse : Bytes → Bytes → Except GoErr MultipartForm)
    (trace : ClientTrace) (now : Nat) (st : RTState) (request : HttpRequest) (b : Bytes)
    (hbody : request.body = some b)
    (hct : headerGet request.header (ascii "Content-Type") = []) :
    RoundTrip inner rewrite marshal mpParse trace now st request =
      { response := none, err := some "parsing request Content-Type: mime: no media type",
        innerCalled := false, st := st } := by
  have hmt : parseMediaType ([] : Bytes) = .error "mime: no media type" := rfl
  have hpre : preRoundTrip mpParse request =
      .error "parsing request Content-Type: mime: no media type" := by
    simp [preRoundTrip, hbody, hct, hmt]
  simp [RoundTrip, hpre]

/-- Witness for C9: a POST with a body and an empty header set is rejected
before the transport runs. -/
theorem roundTrip_body_without_content_type_errors_witness :
    RoundTrip innerFail rwIfEmpty marshal0 mp0 trace0 30 st0 reqNoCT =
      { response := none, err := some "parsing request Content-Type: mime: no media type",
        innerCalled := false, st := st0 } :=
  roundTrip_body_without_content_type_errors innerFail rwIfEmpty marshal0 mp0 trace0 30 st0
    reqNoCT (ascii "x") rfl rfl

/-- C10: when the transport succeeds but the response Content-Type does not
parse, `RoundTrip` writes no entry and returns the wrapped error together
with the response, whose original body has been drained and replaced by an
in-memory copy of the same bytes. -/
theorem roundTrip_response_ct_failure
    (inner : HttpRequest → Except GoErr HttpResponse)
    (rewrite : HttpRequest → HttpResponse → List Char → Option (List Char))
    (marshal : Entry → List Char) (mpParse : Bytes → Bytes → Except GoErr MultipartForm)
    (trace : ClientTrace) (now : Nat) (st : RTState) (request r2 : HttpRequest)
    (re : RequestEntry) (resp : HttpResponse) (e : GoErr)
    (hpre : preRoundTrip mpParse request = .ok (r2, re))
    (hinner : inner r2 = .ok resp)
    (hct : parseMediaType (headerGet resp.header (ascii "Content-Type")) = .error e) :
    RoundTrip inner rewrite marshal mpParse trace now st request =
      { response := some { resp with bodyReplayed := true },
        err := some ("parsing response Content-Type: " ++ e),
        innerCalled := true, st := st } ∧
    ({ resp with bodyReplayed := true } : HttpResponse).body = resp.body := by
  refine ⟨?_, rfl⟩
  simp [RoundTrip, hpre, hinner, postRoundTrip, hct]

/-- Witness for C10: a missing response Content-Type yields the error plus
the replayed response carrying the same body bytes. -/
theorem roundTrip_response_ct_failure_witness :
    RoundTrip innerNoCT rwIfEmpty marshal0 mp0 trace0 30 st0 req0 =
      { response := some { respNoCT with bodyReplayed := true },
        err := some "parsing response Content-Type: mime: no media type",
        innerCalled := true, st := st0 } ∧
    ({ respNoCT with bodyReplayed := true } : HttpResponse).body = respNoCT.body :=
  roundTrip_response_ct_failure innerNoCT rwIfEmpty marshal0 mp0 trace0 30 st0
    req0 req0 (mkRequestEntry req0 none (-1)) respNoCT _ rfl rfl rfl

/-- C7: `writeEntry` with a rewrite hook returning `none` writes nothing,
succeeds, and leaves the first-entry flag untouched; with `some bs` it writes
exactly `bs` (after the separator for entries past the first) and clears the
flag. -/
theorem writeEntry_hook_suppression_and_verbatim
    (rewrite : HttpRequest → HttpResponse → List Char → Option (List Char))
    (st : RTState) (request : HttpRequest) (response : HttpResponse) (entryJson : List Char) :
    (rewrite request response entryJson = none →
      writeEntry rewrite st request response entryJson = (st, .ok ())) ∧
    (∀ bs, rewrite request response entryJson = some bs →
      writeEntry rewrite st request response entryJson =
        ({ first := false, out := st.out ++ (if st.first then [] else entrySep) ++ bs },
         .ok ())) := by
  constructor
  · intro h; simp [writeEntry, h]
  · intro bs h; simp [writeEntry, h]

/-- Witness for C7: the empty-entry-suppressing hook drops an empty entry
without touching the state and passes a non-empty entry through verbatim. -/
theorem writeEntry_hook_suppression_and_verbatim_witness :
    writeEntry rwIfEmpty st0 req0 respText [] = (st0, .ok ()) ∧
    writeEntry rwIfEmpty st0 req0 respText (chars "E") =
      ({ first := false, out := st0.out ++ (if st0.first then [] else entrySep) ++ chars "E" },
       .ok ()) :=
  ⟨(writeEntry_hook_suppression_and_verbatim rwIfEmpty st0 req0 respText []).1 rfl,
   (writeEntry_hook_suppression_and_verbatim rwIfEmpty st0 req0 respText (chars "E")).2
     (chars "E") rfl⟩

/-- C5: on a successful exchange whose response Content-Type parses to
`mt`, the stored content text is the body verbatim with no encoding marker
when `mt` begins with `text/`, and the standard base64 encoding of the body
with marker `base64` otherwise. -/
theorem postRoundTrip_text_vs_base64 (resp : HttpResponse) (trace : ClientTrace) (now : Nat)
    (mt : Bytes) (ps : List (Bytes × Bytes))
    (hct : parseMediaType (headerGet resp.header (ascii "Content-Type")) = .ok (mt, ps)) :
    postRoundTrip resp trace now =
      ({ resp with bodyReplayed := true },
       .ok (mkResponseEntry resp mt (headerGet resp.header (ascii "Content-Type")),
            trace.startAt, (now : Int) - (trace.startAt : Int), exchangeTimings trace now)) ∧
    (mkResponseEntry resp mt (headerGet resp.header (ascii "Content-Type"))).content.text =
      (if (ascii "text/").isPrefixOf mt then resp.body else base64Encode resp.body) ∧
    (mkResponseEntry resp mt (headerGet resp.header (ascii "Content-Type"))).content.encoding =
      (if (ascii "text/").isPrefixOf mt then [] else ascii "base64") := by
  refine ⟨by simp [postRoundTrip, hct], ?_, ?_⟩ <;>
    simp only [mkResponseEntry] <;> split <;> simp

/-- Witness for C5: `text/plain` body `hello` is stored verbatim with empty
encoding; an `application/octet-stream` body is stored base64-encoded with
the `base64` marker. -/
theorem postRoundTrip_text_vs_base64_witness :
    ((mkResponseEntry respText (ascii "text/plain") (ascii "text/plain")).content.text =
        ascii "hello" ∧
      (mkResponseEntry respText (ascii "text/plain") (ascii "text/plain")).content.encoding =
        ([] : Bytes)) ∧
    ((mkResponseEntry respBin (ascii "application/octet-stream")
          (ascii "application/octet-stream")).content.text = base64Encode [0, 1, 254] ∧
      (mkResponseEntry respBin (ascii "application/octet-stream")
          (ascii "application/octet-stream")).content.encoding = ascii "base64") :=
  ⟨⟨(postRoundTrip_text_vs_base64 respText trace0 30 (ascii "text/plain") [] rfl).2.1,
    (postRoundTrip_text_vs_base64 respText trace0 30 (ascii "text/plain") [] rfl).2.2⟩,
   ⟨(postRoundTrip_text_vs_base64 respBin trace0 30 (ascii "application/octet-stream") [] rfl).2.1,
    (postRoundTrip_text_vs_base64 respBin trace0 30 (ascii "application/octet-stream") [] rfl).2.2⟩⟩

/-- Blocked timing is the unconditional connection-start minus exchange-start
difference. -/
theorem exchangeTimings_blocked (t : ClientTrace) (now : Nat) :
    (exchangeTimings t now).blocked = (t.connStart : Int) - (t.startAt : Int) := by
  simp only [exchangeTimings, computeTimings]
  split_ifs <;> rfl

/-- Send timing is the unconditional write-completion minus
connection-obtained difference. -/
theorem exchangeTimings_send (t : ClientTrace) (now : Nat) :
    (exchangeTimings t now).send = (t.writeRequest : Int) - (t.connObtained : Int) := by
  simp only [exchangeTimings, computeTimings]
  split_ifs <;> rfl

/-- Wait timing is the unconditional first-byte minus write-completion
difference. -/
theorem exchangeTimings_wait (t : ClientTrace) (now : Nat) :
    (exchangeTimings t now).wait = (t.firstResponseByte : Int) - (t.writeRequest : Int) := by
  simp only [exchangeTimings, computeTimings]
  split_ifs <;> rfl

/-- Receive timing is the unconditional end minus first-byte difference. -/
theorem exchangeTimings_receive (t : ClientTrace) (now : Nat) :
    (exchangeTimings t now).receive = (now : Int) - (t.firstResponseByte : Int) := by
  simp only [exchangeTimings, computeTimings]
  split_ifs <;> rfl

/-- DNS timing is guarded by the DNS-start timestamp. -/
theorem exchangeTimings_dns (t : ClientTrace) (now : Nat) :
    (exchangeTimings t now).dns =
      if t.dnsStart ≠ 0 then (t.dnsEnd : Int) - (t.dnsStart : Int) else -1 := by
  simp only [exchangeTimings, computeTimings]
  split_ifs <;> rfl

/-- Connect timing is guarded by the connection-start timestamp. -/
theorem exchangeTimings_connect (t : ClientTrace) (now : Nat) :
    (exchangeTimings t now).connect =
      if t.connStart ≠ 0 then (t.connObtained : Int) - (t.connStart : Int) else -1 := by
  simp only [exchangeTimings, computeTimings]
  split_ifs <;> rfl

/-- SSL timing is guarded by the TLS-handshake-start timestamp. -/
theorem exchangeTimings_ssl (t : ClientTrace) (now : Nat) :
    (exchangeTimings t now).ssl =
      if t.tlsHandshakeStart ≠ 0 then (t.tlsHandshakeEnd : Int) - (t.tlsHandshakeStart : Int)
      else -1 := by
  simp only [exchangeTimings, computeTimings]
  split_ifs <;> rfl

/-- C8: the timings of every entry produced by a successful exchange on a
well-formed trace have each field non-negative or exactly the `-1` sentinel,
and `-1` appears precisely when the corresponding phase start was not
observed. -/
theorem postRoundTrip_timings_nonneg_or_sentinel (resp : HttpResponse) (trace : ClientTrace)
    (now : Nat) (re : ResponseEntry) (started : Nat) (time : Int) (tm : Timings)
    (hpost : (postRoundTrip resp trace now).2 = .ok (re, started, time, tm))
    (hwf : trace.WellFormed now) :
    0 ≤ tm.blocked ∧ 0 ≤ tm.send ∧ 0 ≤ tm.wait ∧ 0 ≤ tm.receive ∧
    (0 ≤ tm.dns ∨ tm.dns = -1) ∧ (0 ≤ tm.connect ∨ tm.connect = -1) ∧
    (0 ≤ tm.ssl ∨ tm.ssl = -1) ∧
    (tm.dns = -1 ↔ trace.dnsStart = 0) ∧
    (tm.connect = -1 ↔ trace.connStart = 0) ∧
    (tm.ssl = -1 ↔ trace.tlsHandshakeStart = 0) := by
  have htm : tm = exchangeTimings trace now := by
    rcases hmt : parseMediaType (headerGet resp.header (ascii "Content-Type")) with e | ⟨mt, ps2⟩
    · simp [postRoundTrip, hmt] at hpost
    · simp [postRoundTrip, hmt] at hpost
      exact hpost.2.2.2.symm
  subst htm
  obtain ⟨h0, h1, h2, h3, h4, h5, hdns, htls⟩ := hwf
  have hcs : trace.connStart ≠ 0 := by omega
  rw [exchangeTimings_blocked, exchangeTimings_send, exchangeTimings_wait,
    exchangeTimings_receive, exchangeTimings_dns, exchangeTimings_connect, exchangeTimings_ssl]
  by_cases hd : trace.dnsStart = 0 <;> by_cases ht : trace.tlsHandshakeStart = 0
  · rw [if_neg (show ¬trace.dnsStart ≠ 0 by simp [hd]),
      if_neg (show ¬trace.tlsHandshakeStart ≠ 0 by simp [ht]), if_pos hcs]
    omega
  · have h6 := htls ht
    rw [if_neg (show ¬trace.dnsStart ≠ 0 by simp [hd]), if_pos ht, if_pos hcs]
    omega
  · have h6 := hdns hd
    rw [if_pos hd, if_neg (show ¬trace.tlsHandshakeStart ≠ 0 by simp [ht]), if_pos hcs]
    omega
  · have h6 := hdns hd
    have h7 := htls ht
    rw [if_pos hd, if_pos ht, if_pos hcs]
    omega

/-- Witness for C8: the fixture trace (DNS observed, TLS not, connection
established) yields non-negative blocked/send/wait/receive and DNS, the
sentinel for SSL only. -/
theorem postRoundTrip_timings_nonneg_or_sentinel_witness :
    0 ≤ (exchangeTimings trace0 30).blocked ∧ 0 ≤ (exchangeTimings trace0 30).send ∧
    0 ≤ (exchangeTimings trace0 30).wait ∧ 0 ≤ (exchangeTimings trace0 30).receive ∧
    (0 ≤ (exchangeTimings trace0 30).dns ∨ (exchangeTimings trace0 30).dns = -1) ∧
    (0 ≤ (exchangeTimings trace0 30).connect ∨ (exchangeTimings trace0 30).connect = -1) ∧
    (0 ≤ (exchangeTimings trace0 30).ssl ∨ (exchangeTimings trace0 30).ssl = -1) ∧
    ((exchangeTimings trace0 30).dns = -1 ↔ trace0.dnsStart = 0) ∧
    ((exchangeTimings trace0 30).connect = -1 ↔ trace0.connStart = 0) ∧
    ((exchangeTimings trace0 30).ssl = -1 ↔ trace0.tlsHandshakeStart = 0) :=
  postRoundTrip_timings_nonneg_or_sentinel respText trace0 30
    (mkResponseEntry respText (ascii "text/plain") (ascii "text/plain"))
    trace0.startAt ((30 : Int) - (trace0.startAt : Int)) (exchangeTimings trace0 30)
    rfl (by constructor <;> simp [trace0, ClientTrace.WellFormed])

/-- C6: pre-capture preserves the request body bytes for the inner transport
(the forwarded request's body equals the caller's), the archived post-data
text is exactly those raw bytes, and for the urlencoded body `a=b&c=d` the
params are exactly the pairs `a=b` and `c=d`. -/
theorem preRoundTrip_body_round_trip (mpParse : Bytes → Bytes → Except GoErr MultipartForm) :
    (∀ r r2 re, preRoundTrip mpParse r = .ok (r2, re) →
      r2.body = r.body ∧
      ∀ b, r.body = some b → ∃ pd, re.postData = some pd ∧ pd.text = b) ∧
    (∃ r2 re pd, preRoundTrip mpParse reqForm = .ok (r2, re) ∧
      r2.body = reqForm.body ∧ re.postData = some pd ∧ pd.text = ascii "a=b&c=d" ∧
      pd.params.length = 2 ∧
      (⟨ascii "a", ascii "b", [], []⟩ : Param) ∈ pd.params ∧
      (⟨ascii "c", ascii "d", [], []⟩ : Param) ∈ pd.params) := by
  constructor
  · intro r r2 re h
    unfold preRoundTrip at h
    iterate 8
      all_goals try split at h
      all_goals try simp only [Except.ok.injEq, Prod.mk.injEq] at h
    all_goals
      (first
        | exact Except.noConfusion h
        | (obtain ⟨h1, h2⟩ := h
           subst h1
           subst h2
           refine ⟨by simp_all, fun b hb => ?_⟩
           first
             | (simp only [mkRequestEntry]; refine ⟨_, rfl, ?_⟩; simp_all)
             | (exfalso; simp_all)))
  · exact ⟨_, _, _, rfl, rfl, rfl, rfl, by decide, by decide, by decide⟩

/-- Witness for C6: the fixture urlencoded POST keeps its body for the
transport and archives raw text `a=b&c=d`. -/
theorem preRoundTrip_body_round_trip_witness :
    ∃ r2 re pd, preRoundTrip mp0 reqForm = .ok (r2, re) ∧
      r2.body = reqForm.body ∧ re.postData = some pd ∧ pd.text = ascii "a=b&c=d" ∧
      pd.params.length = 2 ∧
      (⟨ascii "a", ascii "b", [], []⟩ : Param) ∈ pd.params ∧
      (⟨ascii "c", ascii "d", [], []⟩ : Param) ∈ pd.params :=
  (preRoundTrip_body_round_trip mp0).2

/-! ## JSON round-trip lemmas

The chain below proves that `parseVal` recovers any rendered value:
character-level facts first, then digits, strings, heads of renderings, and
finally the mutual statement by induction on the fuel. -/

/-- Whitespace skipping is the identity on a non-whitespace head. -/
theorem skipWs_cons (c : Char) (cs : List Char) (h : isWsChar c = false) :
    skipWs (c :: cs) = c :: cs := by
  simp [skipWs, h]

/-- A rendered digit character is a digit. -/
theorem digitChar_isDigit (d : Nat) (h : d < 10) : (Char.ofNat (48 + d)).isDigit = true := by
  interval_cases d <;> decide

/-- Value of a rendered digit character. -/
theorem digitChar_toNat (d : Nat) (h : d < 10) : (Char.ofNat (48 + d)).toNat = 48 + d := by
  interval_cases d <;> decide

/-- A digit character is not whitespace. -/
theorem digitChar_not_ws (d : Nat) (h : d < 10) : isWsChar (Char.ofNat (48 + d)) = false := by
  interval_cases d <;> decide

/-- A digit character is not a closing bracket or brace. -/
theorem digitChar_ne_closers (d : Nat) (h : d < 10) :
    Char.ofNat (48 + d) ≠ ']' ∧ Char.ofNat (48 + d) ≠ '}' := by
  interval_cases d <;> exact ⟨by decide, by decide⟩

/-- A rendered natural starts with a digit character. -/
theorem renderNat_head (n : Nat) : ∃ d ds, renderNat n = Char.ofNat (48 + d) :: ds ∧ d < 10 := by
  induction n using Nat.strong_induction_on with
  | _ n ih =>
    by_cases h : n < 10
    · refine ⟨n, [], ?_, h⟩
      rw [renderNat]
      simp [h]
    · obtain ⟨d, ds, hd, hlt⟩ := ih (n / 10) (Nat.div_lt_self (by omega) (by omega))
      refine ⟨d, ds ++ [Char.ofNat (48 + n % 10)], ?_, hlt⟩
      rw [renderNat]
      simp [h, hd]

/-- Digit accumulation stops at a non-digit head. -/
theorem parseDigits_stop (rest : List Char) (a : Nat) (h : headOkB rest = true) :
    parseDigits rest a = (a, rest) := by
  cases rest with
  | nil => rfl
  | cons c cs =>
    simp only [headOkB, Bool.not_eq_true'] at h
    simp [parseDigits, h]

/-- Reading the rendering of `n` multiplies the accumulator past it and adds
`n`. -/
theorem parseDigits_renderNat (n : Nat) : ∀ acc rest,
    parseDigits (renderNat n ++ rest) acc =
      parseDigits rest (acc * 10 ^ (renderNat n).length + n) := by
  induction n using Nat.strong_induction_on with
  | _ n ih =>
    intro acc rest
    by_cases h : n < 10
    · have hr : renderNat n = [Char.ofNat (48 + n)] := by rw [renderNat]; simp [h]
      rw [hr]
      simp only [List.cons_append, List.nil_append, List.length_cons, List.length_nil]
      rw [parseDigits]
      simp only [digitChar_isDigit n h, if_true, digitChar_toNat n h]
      have : acc * 10 + (48 + n - 48) = acc * 10 ^ (0 + 1) + n := by
        rw [pow_succ, pow_zero]; omega
      rw [this]
    · have hmod : n % 10 < 10 := Nat.mod_lt _ (by omega)
      have hr : renderNat n = renderNat (n / 10) ++ [Char.ofNat (48 + n % 10)] := by
        rw [renderNat]; simp [h]
      rw [hr, List.append_assoc, ih (n / 10) (Nat.div_lt_self (by omega) (by omega))]
      simp only [List.singleton_append]
      rw [parseDigits]
      simp only [digitChar_isDigit _ hmod, if_true, digitChar_toNat _ hmod]
      have harith : (acc * 10 ^ (renderNat (n / 10)).length + n / 10) * 10 + (48 + n % 10 - 48) =
          acc * 10 ^ ((renderNat (n / 10)).length + 1) + n := by
        rw [pow_succ]
        have h2 : n / 10 * 10 + n % 10 = n := by omega
        calc (acc * 10 ^ (renderNat (n / 10)).length + n / 10) * 10 + (48 + n % 10 - 48)
            = acc * (10 ^ (renderNat (n / 10)).length * 10) + (n / 10 * 10 + n % 10) := by ring_nf; omega
          _ = acc * (10 ^ (renderNat (n / 10)).length * 10) + n := by rw [h2]
      rw [harith]
      simp

/-- Hex digits rendered by the escaper decode to their value. -/
theorem unhexChar_hexDigitChar (k : Nat) (h : k < 16) : unhexChar (hexDigitChar k) = some k := by
  interval_cases k <;> decide

/-- The string parser undoes the escaper and stops at the closing quote. -/
theorem parseStrBody_escape (s : List Char) : ∀ rest,
    parseStrBody (escapeStr s ++ '"' :: rest) = some (s, rest) := by
  induction s with
  | nil =>
    intro rest
    show parseStrBody ('"' :: rest) = some ([], rest)
    rw [parseStrBody.eq_def]
    simp
  | cons c cs ih =>
    intro rest
    show parseStrBody ((escapeChar c ++ escapeStr cs) ++ '"' :: rest) = _
    rw [List.append_assoc]
    by_cases h1 : c = '"'
    · subst h1
      show parseStrBody ('\\' :: '"' :: (escapeStr cs ++ '"' :: rest)) = _
      simp [parseStrBody, escDecode, ih rest]
    · by_cases h2 : c = '\\'
      · subst h2
        show parseStrBody ('\\' :: '\\' :: (escapeStr cs ++ '"' :: rest)) = _
        simp [parseStrBody, escDecode, ih rest]
      · by_cases h3 : c.toNat < 32
        · have he : escapeChar c =
              ['\\', 'u', '0', '0', hexDigitChar (c.toNat / 16), hexDigitChar (c.toNat % 16)] := by
            simp [escapeChar, h1, h2, h3]
          rw [he]
          simp only [List.cons_append, List.nil_append]
          rw [parseStrBody]
          simp only [if_neg (by decide : ¬('\\' : Char) = '"'), if_pos rfl]
          rw [unhexChar_hexDigitChar (c.toNat / 16) (by omega),
            unhexChar_hexDigitChar (c.toNat % 16) (by omega)]
          simp only [show unhexChar '0' = some 0 from rfl]
          rw [ih rest]
          have harith : ((0 * 16 + 0) * 16 + c.toNat / 16) * 16 + c.toNat % 16 = c.toNat := by
            omega
          have h4 : c.toNat / 16 * 16 + c.toNat % 16 = c.toNat := by omega
          simp [harith, h4, Char.ofNat_toNat]
        · have he : escapeChar c = [c] := by simp [escapeChar, h1, h2, h3]
          rw [he]
          simp only [List.cons_append, List.nil_append]
          rw [parseStrBody.eq_def]
          simp [h1, h2, h3, ih rest]

/-- A rendered value starts with a non-whitespace character that is not a
closing bracket or brace. -/
theorem render_head (v : J) :
    ∃ c cs, render v = c :: cs ∧ isWsChar c = false ∧ c ≠ ']' ∧ c ≠ '}' := by
  cases v with
  | null => exact ⟨'n', _, rfl, by decide, by decide, by decide⟩
  | bool b =>
    cases b
    · exact ⟨'f', _, rfl, by decide, by decide, by decide⟩
    · exact ⟨'t', _, rfl, by decide, by decide, by decide⟩
  | num i =>
    by_cases h : i < 0
    · refine ⟨'-', renderNat i.natAbs, ?_, by decide, by decide, by decide⟩
      simp [render, renderInt, h]
    · obtain ⟨d, ds, hd, hlt⟩ := renderNat_head i.natAbs
      refine ⟨Char.ofNat (48 + d), ds, ?_, digitChar_not_ws d hlt,
        (digitChar_ne_closers d hlt).1, (digitChar_ne_closers d hlt).2⟩
      simp [render, renderInt, h, hd]
  | str s => exact ⟨'"', _, rfl, by decide, by decide, by decide⟩
  | arr xs => exact ⟨'[', _, rfl, by decide, by decide, by decide⟩
  | obj kvs => exact ⟨'{', _, rfl, by decide, by decide, by decide⟩

/-- Whitespace skipping is the identity in front of a rendered value. -/
theorem skipWs_render (v : J) (rest : List Char) :
    skipWs (render v ++ rest) = render v ++ rest := by
  obtain ⟨c, cs, hc, hws, -, -⟩ := render_head v
  rw [hc, List.cons_append, skipWs_cons _ _ hws]

/-- Rendered non-empty array elements start like their first element. -/
theorem renderElems_cons_head (x : J) (xs : List J) :
    ∃ c cs, renderElems (x :: xs) = c :: cs ∧ isWsChar c = false ∧ c ≠ ']' ∧ c ≠ '}' := by
  obtain ⟨c, cs, hc, hw, h1, h2⟩ := render_head x
  cases xs with
  | nil => exact ⟨c, cs, by simp [renderElems, hc], hw, h1, h2⟩
  | cons y ys =>
    exact ⟨c, cs ++ ',' :: renderElems (y :: ys), by simp [renderElems, hc], hw, h1, h2⟩

/-- Rendered non-empty object fields start with a quote. -/
theorem renderFields_cons_head (kv : List Char × J) (kvs : List (List Char × J)) :
    ∃ cs, renderFields (kv :: kvs) = '"' :: cs := by
  obtain ⟨k, v⟩ := kv
  cases kvs with
  | nil => exact ⟨escapeStr k ++ '"' :: ':' :: render v, by simp [renderFields]⟩
  | cons kv2 kvs2 =>
    exact ⟨escapeStr k ++ '"' :: ':' :: (render v ++ ',' :: renderFields (kv2 :: kvs2)),
      by simp [renderFields]⟩

/-- Every value needs at least one unit of fuel. -/
theorem Jfuel_pos (v : J) : 1 ≤ Jfuel v := by
  cases v <;> simp [Jfuel]

/-- Element lists need at least one unit of fuel. -/
theorem JfuelElems_pos (xs : List J) : 1 ≤ JfuelElems xs := by
  cases xs <;> simp [JfuelElems] <;> omega

/-- Field lists need at least one unit of fuel. -/
theorem JfuelFields_pos (kvs : List (List Char × J)) : 1 ≤ JfuelFields kvs := by
  cases kvs <;> simp [JfuelFields] <;> omega

/-- Parser step on the `null` literal. -/
theorem parseVal_null (f : Nat) (X : List Char) :
    parseVal (f + 1) ('n' :: 'u' :: 'l' :: 'l' :: X) = some (.null, X) := rfl

/-- Parser step on the `true` literal. -/
theorem parseVal_true (f : Nat) (X : List Char) :
    parseVal (f + 1) ('t' :: 'r' :: 'u' :: 'e' :: X) = some (.bool true, X) := rfl

/-- Parser step on the `false` literal. -/
theorem parseVal_false (f : Nat) (X : List Char) :
    parseVal (f + 1) ('f' :: 'a' :: 'l' :: 's' :: 'e' :: X) = some (.bool false, X) := rfl

/-- Parser step on an opening quote. -/
theorem parseVal_quote (f : Nat) (X : List Char) :
    parseVal (f + 1) ('"' :: X) = (parseStrBody X).map (fun p => (J.str p.1, p.2)) := rfl

/-- Parser step on an opening bracket. -/
theorem parseVal_lbracket (f : Nat) (X : List Char) :
    parseVal (f + 1) ('[' :: X) =
      (match skipWs X with
       | ']' :: rest => some (J.arr [], rest)
       | cs2 => (parseElems f cs2).map (fun p => (J.arr p.1, p.2))) := rfl

/-- Parser step on an opening brace. -/
theorem parseVal_lbrace (f : Nat) (X : List Char) :
    parseVal (f + 1) ('{' :: X) =
      (match skipWs X with
       | '}' :: rest => some (J.obj [], rest)
       | cs2 => (parseFields f cs2).map (fun p => (J.obj p.1, p.2))) := rfl

/-- Parser step on a digit head. -/
theorem parseVal_digit (f : Nat) (c : Char) (X : List Char) (h : c.isDigit = true) :
    parseVal (f + 1) (c :: X) =
      some (.num ((parseDigits (c :: X) 0).1 : Int), (parseDigits (c :: X) 0).2) := by
  simp [parseVal, h]

/-- Parser step on a minus sign followed by a digit. -/
theorem parseVal_minus (f : Nat) (c : Char) (X : List Char) (h : c.isDigit = true) :
    parseVal (f + 1) ('-' :: c :: X) =
      some (.num (-((parseDigits (c :: X) 0).1 : Int)), (parseDigits (c :: X) 0).2) := by
  simp [parseVal, h]

/-- Element-parser unfolding at positive fuel. -/
theorem parseElems_succ (f : Nat) (input : List Char) :
    parseElems (f + 1) input =
      (match parseVal f input with
       | none => none
       | some (v, r) =>
         match skipWs r with
         | ',' :: r2 => (parseElems f (skipWs r2)).map (fun p => (v :: p.1, p.2))
         | ']' :: r2 => some ([v], r2)
         | _ => none) := rfl

/-- Field-parser unfolding at positive fuel on a quote head. -/
theorem parseFields_succ_quote (f : Nat) (cs : List Char) :
    parseFields (f + 1) ('"' :: cs) =
      (match parseStrBody cs with
       | none => none
       | some (k, r) =>
         match skipWs r with
         | ':' :: r2 =>
           match parseVal f (skipWs r2) with
           | none => none
           | some (v, r3) =>
             match skipWs r3 with
             | ',' :: r4 =>
               match skipWs r4 with
               | '"' :: cs2 => (parseFields f ('"' :: cs2)).map (fun p => ((k, v) :: p.1, p.2))
               | _ => none
             | '}' :: r4 => some ([(k, v)], r4)
             | _ => none
         | _ => none) := rfl

/-- Element parsing once the first value is known. -/
theorem parseElems_step (f : Nat) (input : List Char) (v : J) (r : List Char)
    (hv : parseVal f input = some (v, r)) :
    parseElems (f + 1) input =
      (match skipWs r with
       | ',' :: r2 => (parseElems f (skipWs r2)).map (fun p => (v :: p.1, p.2))
       | ']' :: r2 => some ([v], r2)
       | _ => none) := by
  rw [parseElems_succ, hv]

/-- Element parsing ends at a closing bracket after a value. -/
theorem parseElems_step_rbracket (f : Nat) (input : List Char) (v : J) (r2 : List Char)
    (hv : parseVal f input = some (v, ']' :: r2)) :
    parseElems (f + 1) input = some ([v], r2) := by
  rw [parseElems_step f input v _ hv, skipWs_cons _ _ (by decide)]
  rfl

/-- Element parsing continues after a comma following a value. -/
theorem parseElems_step_comma (f : Nat) (input : List Char) (v : J) (r2 : List Char)
    (hv : parseVal f input = some (v, ',' :: r2)) :
    parseElems (f + 1) input = (parseElems f (skipWs r2)).map (fun p => (v :: p.1, p.2)) := by
  rw [parseElems_step f input v _ hv, skipWs_cons _ _ (by decide)]
  rfl

/-- Field parsing once the key string is known. -/
theorem parseFields_quote_step (f : Nat) (cs k r : List Char)
    (hs : parseStrBody cs = some (k, r)) :
    parseFields (f + 1) ('"' :: cs) =
      (match skipWs r with
       | ':' :: r2 =>
         match parseVal f (skipWs r2) with
         | none => none
         | some (v, r3) =>
           match skipWs r3 with
           | ',' :: r4 =>
             match skipWs r4 with
             | '"' :: cs2 => (parseFields f ('"' :: cs2)).map (fun p => ((k, v) :: p.1, p.2))
             | _ => none
           | '}' :: r4 => some ([(k, v)], r4)
           | _ => none
       | _ => none) := by
  rw [parseFields_succ_quote, hs]

/-- Field parsing once the key and its value are known. -/
theorem parseFields_colon_step (f : Nat) (cs k r2 : List Char) (v : J) (r3 : List Char)
    (hs : parseStrBody cs = some (k, ':' :: r2))
    (hv : parseVal f (skipWs r2) = some (v, r3)) :
    parseFields (f + 1) ('"' :: cs) =
      (match skipWs r3 with
       | ',' :: r4 =>
         match skipWs r4 with
         | '"' :: cs2 => (parseFields f ('"' :: cs2)).map (fun p => ((k, v) :: p.1, p.2))
         | _ => none
       | '}' :: r4 => some ([(k, v)], r4)
       | _ => none) := by
  rw [parseFields_quote_step f cs k _ hs, skipWs_cons _ _ (by decide)]
  simp only [hv]

/-- Field parsing ends at a closing brace after a value. -/
theorem parseFields_step_rbrace (f : Nat) (cs k r2 : List Char) (v : J) (r4 : List Char)
    (hs : parseStrBody cs = some (k, ':' :: r2))
    (hv : parseVal f (skipWs r2) = some (v, '}' :: r4)) :
    parseFields (f + 1) ('"' :: cs) = some ([(k, v)], r4) := by
  rw [parseFields_colon_step f cs k r2 v _ hs hv, skipWs_cons _ _ (by decide)]
  rfl

/-- Field parsing continues after a comma when the next key's quote
follows. -/
theorem parseFields_step_comma (f : Nat) (cs k r2 : List Char) (v : J) (r4 cs2 : List Char)
    (hs : parseStrBody cs = some (k, ':' :: r2))
    (hv : parseVal f (skipWs r2) = some (v, ',' :: r4))
    (hr : skipWs r4 = '"' :: cs2) :
    parseFields (f + 1) ('"' :: cs) =
      (parseFields f ('"' :: cs2)).map (fun p => ((k, v) :: p.1, p.2)) := by
  rw [parseFields_colon_step f cs k r2 v _ hs hv, skipWs_cons _ _ (by decide)]
  simp only [hr]

/-- The array match takes its default branch on a head other than `]`. -/
theorem arrMatch_cons (f : Nat) (c : Char) (X : List Char) (h : c ≠ ']') :
    (match c :: X with
     | ']' :: rest => some (J.arr [], rest)
     | cs2 => (parseElems f cs2).map (fun p => (J.arr p.1, p.2))) =
      (parseElems f (c :: X)).map (fun p => (J.arr p.1, p.2)) := by
  split
  next rest heq =>
    cases heq
    exact absurd rfl h
  next => rfl

/-- The object match takes its default branch on a head other than `}`. -/
theorem objMatch_cons (f : Nat) (c : Char) (X : List Char) (h : c ≠ '}') :
    (match c :: X with
     | '}' :: rest => some (J.obj [], rest)
     | cs2 => (parseFields f cs2).map (fun p => (J.obj p.1, p.2))) =
      (parseFields f (c :: X)).map (fun p => (J.obj p.1, p.2)) := by
  split
  next rest heq =>
    cases heq
    exact absurd rfl h
  next => rfl

/-- Round-trip: with enough fuel, the parser recovers every rendered value,
every rendered element list up to its closing bracket, and every rendered
field list up to its closing brace.  Proved by induction on the fuel. -/
theorem parse_render_all (f : Nat) :
    (∀ v rest, Jfuel v ≤ f → headOkB rest = true →
      parseVal f (render v ++ rest) = some (v, rest)) ∧
    (∀ xs rest, xs ≠ [] → JfuelElems xs ≤ f →
      parseElems f (renderElems xs ++ ']' :: rest) = some (xs, rest)) ∧
    (∀ kvs rest, kvs ≠ [] → JfuelFields kvs ≤ f →
      parseFields f (renderFields kvs ++ '}' :: rest) = some (kvs, rest)) := by
  induction f with
  | zero =>
    refine ⟨fun v rest hf _ => absurd hf ?_, fun xs rest _ hf => absurd hf ?_,
      fun kvs rest _ hf => absurd hf ?_⟩
    · have := Jfuel_pos v; omega
    · have := JfuelElems_pos xs; omega
    · have := JfuelFields_pos kvs; omega
  | succ f ih =>
    obtain ⟨ihV, ihE, ihF⟩ := ih
    refine ⟨?_, ?_, ?_⟩
    · intro v rest hf hok
      cases v with
      | null => exact parseVal_null f rest
      | bool b =>
        cases b
        · exact parseVal_false f rest
        · exact parseVal_true f rest
      | num i =>
        rcases renderNat_head i.natAbs with ⟨d, ds, hd, hlt⟩
        have hlist : Char.ofNat (48 + d) :: (ds ++ rest) = renderNat i.natAbs ++ rest := by
          rw [hd]; rfl
        by_cases hneg : i < 0
        · have hshape : render (J.num i) ++ rest = '-' :: (renderNat i.natAbs ++ rest) := by
            simp [render, renderInt, hneg]
          rw [hshape, hd, List.cons_append]
          rw [parseVal_minus f _ _ (digitChar_isDigit d hlt)]
          rw [hlist, parseDigits_renderNat, parseDigits_stop rest _ hok]
          have hval : -(((0 * 10 ^ (renderNat i.natAbs).length + i.natAbs : Nat) : Int)) = i := by
            rw [zero_mul, zero_add]; omega
          rw [hval]
        · have hshape : render (J.num i) ++ rest = renderNat i.natAbs ++ rest := by
            simp [render, renderInt, hneg]
          rw [hshape, hd, List.cons_append]
          rw [parseVal_digit f _ _ (digitChar_isDigit d hlt)]
          rw [hlist, parseDigits_renderNat, parseDigits_stop rest _ hok]
          have hval : (((0 * 10 ^ (renderNat i.natAbs).length + i.natAbs : Nat) : Int)) = i := by
            rw [zero_mul, zero_add]; omega
          rw [hval]
      | str s =>
        have hshape : render (J.str s) ++ rest = '"' :: (escapeStr s ++ '"' :: rest) := by
          simp [render]
        rw [hshape, parseVal_quote, parseStrBody_escape]
        rfl
      | arr xs =>
        have hshape : render (J.arr xs) ++ rest = '[' :: (renderElems xs ++ ']' :: rest) := by
          simp [render]
        rw [hshape, parseVal_lbracket]
        cases xs with
        | nil =>
          simp only [renderElems, List.nil_append]
          rw [skipWs_cons _ _ (by decide)]
          rfl
        | cons x xs2 =>
          obtain ⟨c, cs, hc, hw, hrb, _⟩ := renderElems_cons_head x xs2
          rw [hc, List.cons_append, skipWs_cons _ _ hw, arrMatch_cons f c _ hrb]
          rw [show c :: (cs ++ ']' :: rest) = renderElems (x :: xs2) ++ ']' :: rest by
            rw [hc]; rfl]
          rw [ihE (x :: xs2) rest (by simp) (by simp [Jfuel] at hf; omega)]
          rfl
      | obj kvs =>
        have hshape : render (J.obj kvs) ++ rest = '{' :: (renderFields kvs ++ '}' :: rest) := by
          simp [render]
        rw [hshape, parseVal_lbrace]
        cases kvs with
        | nil =>
          simp only [renderFields, List.nil_append]
          rw [skipWs_cons _ _ (by decide)]
          rfl
        | cons kv kvs2 =>
          obtain ⟨cs, hc⟩ := renderFields_cons_head kv kvs2
          rw [hc, List.cons_append, skipWs_cons _ _ (by decide),
            objMatch_cons f '"' _ (by decide)]
          rw [show '"' :: (cs ++ '}' :: rest) = renderFields (kv :: kvs2) ++ '}' :: rest by
            rw [hc]; rfl]
          rw [ihF (kv :: kvs2) rest (by simp) (by simp [Jfuel] at hf; omega)]
          rfl
    · intro xs rest hne hf
      cases xs with
      | nil => exact absurd rfl hne
      | cons x xs2 =>
        cases xs2 with
        | nil =>
          rw [show renderElems [x] ++ ']' :: rest = render x ++ ']' :: rest from by
            simp [renderElems]]
          exact parseElems_step_rbracket f _ x rest
            (ihV x (']' :: rest) (by simp [JfuelElems] at hf; omega) rfl)
        | cons y ys =>
          rw [show renderElems (x :: y :: ys) ++ ']' :: rest =
              render x ++ ',' :: (renderElems (y :: ys) ++ ']' :: rest) from by
            simp [renderElems]]
          rw [parseElems_step_comma f _ x (renderElems (y :: ys) ++ ']' :: rest)
            (ihV x (',' :: (renderElems (y :: ys) ++ ']' :: rest))
              (by simp [JfuelElems] at hf; have := JfuelElems_pos (y :: ys); omega) rfl)]
          obtain ⟨c, cs, hc, hw, -, -⟩ := renderElems_cons_head y ys
          rw [hc, List.cons_append, skipWs_cons _ _ hw]
          rw [show c :: (cs ++ ']' :: rest) = renderElems (y :: ys) ++ ']' :: rest by
            rw [hc]; rfl]
          rw [ihE (y :: ys) rest (by simp)
            (by simp [JfuelElems] at hf ⊢; have := Jfuel_pos x; omega)]
          rfl
    · intro kvs rest hne hf
      cases kvs with
      | nil => exact absurd rfl hne
      | cons kv kvs2 =>
        obtain ⟨k, v⟩ := kv
        cases kvs2 with
        | nil =>
          rw [show renderFields [(k, v)] ++ '}' :: rest =
              '"' :: (escapeStr k ++ '"' :: (':' :: (render v ++ '}' :: rest))) from by
            simp [renderFields]]
          refine parseFields_step_rbrace f _ k (render v ++ '}' :: rest) v rest
            (parseStrBody_escape k _) ?_
          rw [skipWs_render v ('}' :: rest)]
          exact ihV v ('}' :: rest) (by simp [JfuelFields] at hf; omega) rfl
        | cons kv2 kvs3 =>
          rw [show renderFields ((k, v) :: kv2 :: kvs3) ++ '}' :: rest =
              '"' :: (escapeStr k ++ '"' :: (':' ::
                (render v ++ ',' :: (renderFields (kv2 :: kvs3) ++ '}' :: rest)))) from by
            simp [renderFields]]
          obtain ⟨cs, hc⟩ := renderFields_cons_head kv2 kvs3
          rw [parseFields_step_comma f _ k
            (render v ++ ',' :: (renderFields (kv2 :: kvs3) ++ '}' :: rest)) v
            (renderFields (kv2 :: kvs3) ++ '}' :: rest) (cs ++ '}' :: rest)
            (parseStrBody_escape k _)
            (by rw [skipWs_render v _]
                exact ihV v (',' :: (renderFields (kv2 :: kvs3) ++ '}' :: rest))
                  (by simp [JfuelFields] at hf
                      have := JfuelFields_pos (kv2 :: kvs3); omega) rfl)
            (by rw [hc, List.cons_append, skipWs_cons _ _ (by decide)])]
          rw [show '"' :: (cs ++ '}' :: rest) = renderFields (kv2 :: kvs3) ++ '}' :: rest by
            rw [hc]; rfl]
          rw [ihF (kv2 :: kvs3) rest (by simp)
            (by simp [JfuelFields] at hf ⊢; have := Jfuel_pos v; omega)]
          rfl

/-- Round-trip for one value, as a standalone statement. -/
theorem parse_render (f : Nat) (v : J) (rest : List Char) (hf : Jfuel v ≤ f)
    (hok : headOkB rest = true) : parseVal f (render v ++ rest) = some (v, rest) :=
  (parse_render_all f).1 v rest hf hok

/-- A rendered integer is non-empty. -/
theorem renderInt_length_pos (i : Int) : 0 < (renderInt i).length := by
  unfold renderInt
  split
  · simp
  · obtain ⟨d, ds, hd, -⟩ := renderNat_head i.natAbs
    simp [hd]

mutual

/-- The fuel a value needs is at most twice its rendered length. -/
theorem Jfuel_le_render : ∀ v : J, Jfuel v ≤ 2 * (render v).length
  | .null => by simp [Jfuel, render]
  | .bool b => by cases b <;> simp [Jfuel, render]
  | .num i => by
    have := renderInt_length_pos i
    simp only [Jfuel, render]
    omega
  | .str s => by
    simp only [Jfuel, render, List.length_cons, List.length_append]
    omega
  | .arr xs => by
    have h := JfuelElems_le_render xs
    simp only [Jfuel, render, List.length_cons, List.length_append, List.length_singleton]
    omega
  | .obj kvs => by
    have h := JfuelFields_le_render kvs
    simp only [Jfuel, render, List.length_cons, List.length_append, List.length_singleton]
    omega

/-- The fuel an element list needs, against its rendered length. -/
theorem JfuelElems_le_render : ∀ xs : List J, JfuelElems xs ≤ 3 + 2 * (renderElems xs).length
  | [] => by simp [JfuelElems, renderElems]
  | [x] => by
    have := Jfuel_le_render x
    simp only [JfuelElems, renderElems]
    omega
  | x :: y :: ys => by
    have h1 := Jfuel_le_render x
    have h2 := JfuelElems_le_render (y :: ys)
    rw [show JfuelElems (x :: y :: ys) = 1 + Jfuel x + JfuelElems (y :: ys) from rfl,
      show renderElems (x :: y :: ys) = render x ++ ',' :: renderElems (y :: ys) from rfl]
    simp only [List.length_append, List.length_cons]
    omega

/-- The fuel a field list needs, against its rendered length. -/
theorem JfuelFields_le_render : ∀ kvs : List (List Char × J), JfuelFields kvs ≤ 3 + 2 * (renderFields kvs).length
  | [] => by simp [JfuelFields, renderFields]
  | [(k, v)] => by
    have := Jfuel_le_render v
    simp only [JfuelFields, renderFields, List.length_cons, List.length_append]
    omega
  | (k, v) :: kv2 :: kvs2 => by
    have h1 := Jfuel_le_render v
    have h2 := JfuelFields_le_render (kv2 :: kvs2)
    rw [show JfuelFields ((k, v) :: kv2 :: kvs2) =
        1 + Jfuel v + JfuelFields (kv2 :: kvs2) from rfl,
      show renderFields ((k, v) :: kv2 :: kvs2) =
        '"' :: (escapeStr k ++ '"' :: ':' :: render v ++ ',' :: renderFields (kv2 :: kvs2))
        from rfl]
    simp only [List.length_append, List.length_cons]
    omega

end

/-- Explicit character list of the entry separator. -/
theorem entrySep_eq : entrySep = [',', '\n'] := rfl

/-- Explicit character list of the preamble before the creator. -/
theorem preambleA_eq : preambleA =
    ['\x7b', '"', 'l', 'o', 'g', '"', ':', '\x7b', '"', 'v', 'e', 'r', 's', 'i', 'o', 'n',
     '"', ':', '"', '1', '.', '2', '"', ',', '"', 'c', 'r', 'e', 'a', 't', 'o', 'r', '"',
     ':'] := rfl

/-- Explicit character list of the preamble after the creator. -/
theorem preambleB_eq : preambleB =
    [',', '"', 'e', 'n', 't', 'r', 'i', 'e', 's', '"', ':', '[', '\n'] := rfl

/-- Explicit character list of the closing framing. -/
theorem postamble_eq : postamble = ['\n', ']', '\x7d', '\x7d'] := rfl

/-- Whitespace skipping absorbs a whitespace head. -/
theorem skipWs_ws_cons (c : Char) (cs : List Char) (h : isWsChar c = true) :
    skipWs (c :: cs) = skipWs cs := by
  simp [skipWs, h]

/-- The separated tail is the separator followed by the separated join. -/
theorem sepTail_cons (e : List Char) (es : List (List Char)) :
    sepTail (e :: es) = ',' :: '\n' :: sepJoin (e :: es) := by
  simp [sepTail, sepJoin, entrySep_eq]

/-- A non-empty separated join of renderings starts like its first
rendering. -/
theorem sepJoin_map_cons_head (x : J) (xs : List J) :
    ∃ c cs, sepJoin ((x :: xs).map render) = c :: cs ∧ isWsChar c = false ∧ c ≠ ']' := by
  obtain ⟨c, cs, hc, hw, hne, -⟩ := render_head x
  exact ⟨c, cs ++ sepTail (xs.map render), by simp [sepJoin, hc], hw, hne⟩

/-- The fuel an element list needs, against the length of its `",\n"`
separated rendering. -/
theorem JfuelElems_le_sepJoin : ∀ vs : List J,
    JfuelElems vs ≤ 3 + 2 * (sepJoin (vs.map render)).length
  | [] => by simp [JfuelElems, sepJoin]
  | [x] => by
    have := Jfuel_le_render x
    simp only [JfuelElems, List.map_cons, List.map_nil, sepJoin, sepTail, List.append_nil]
    omega
  | x :: y :: ys => by
    have h1 := Jfuel_le_render x
    have h2 := JfuelElems_le_sepJoin (y :: ys)
    rw [show JfuelElems (x :: y :: ys) = 1 + Jfuel x + JfuelElems (y :: ys) from rfl,
      show sepJoin ((x :: y :: ys).map render) =
        render x ++ (',' :: '\n' :: sepJoin ((y :: ys).map render)) from by
          simp only [List.map_cons, sepJoin, sepTail_cons]]
    simp only [List.length_append, List.length_cons]
    omega

/-- The element parser reads a `",\n"`-separated entry list up to the closing
`"\n]"`. -/
theorem parseElems_sepJoin : ∀ (vs : List J) (g : Nat) (rest : List Char),
    vs ≠ [] → JfuelElems vs ≤ g →
    parseElems g (sepJoin (vs.map render) ++ '\n' :: ']' :: rest) = some (vs, rest)
  | [], _, _, hne, _ => absurd rfl hne
  | [v], g, rest, _, hfuel => by
    cases g with
    | zero => exact absurd hfuel (by have := JfuelElems_pos [v]; omega)
    | succ g2 =>
      rw [show sepJoin ([v].map render) = render v from by
        simp [sepJoin, sepTail]]
      rw [parseElems_step g2 _ v ('\n' :: ']' :: rest)
        (parse_render g2 v _ (by simp [JfuelElems] at hfuel; omega) rfl)]
      rw [skipWs_ws_cons _ _ (by decide), skipWs_cons _ _ (by decide)]
      rfl
  | v :: v2 :: vs2, g, rest, _, hfuel => by
    cases g with
    | zero => exact absurd hfuel (by have := JfuelElems_pos (v :: v2 :: vs2); omega)
    | succ g2 =>
      rw [show sepJoin ((v :: v2 :: vs2).map render) =
          render v ++ ',' :: '\n' :: sepJoin ((v2 :: vs2).map render) from by
        simp only [List.map_cons, sepJoin, sepTail_cons]]
      simp only [List.append_assoc, List.cons_append]
      rw [parseElems_step_comma g2 _ v
        ('\n' :: (sepJoin ((v2 :: vs2).map render) ++ '\n' :: ']' :: rest))
        (parse_render g2 v _
          (by simp [JfuelElems] at hfuel; have := JfuelElems_pos (v2 :: vs2); omega) rfl)]
      rw [skipWs_ws_cons _ _ (by decide)]
      obtain ⟨c, cs, hc, hw, -⟩ := sepJoin_map_cons_head v2 vs2
      rw [hc, List.cons_append, skipWs_cons _ _ hw]
      rw [show c :: (cs ++ '\n' :: ']' :: rest) =
          sepJoin ((v2 :: vs2).map render) ++ '\n' :: ']' :: rest from by rw [hc]; rfl]
      rw [parseElems_sepJoin (v2 :: vs2) g2 rest (by simp)
        (by simp [JfuelElems] at hfuel ⊢; have := Jfuel_pos v; omega)]
      rfl

/-- The value parser reads `[`, a newline, the separated entries and the
closing `"\n]"` as the entries array. -/
theorem parseVal_entries (g : Nat) (vs : List J) (rest : List Char)
    (hfuel : JfuelElems vs ≤ g) :
    parseVal (g + 2) ('[' :: ('\n' :: (sepJoin (vs.map render) ++ '\n' :: ']' :: rest))) =
      some (J.arr vs, rest) := by
  refine Eq.trans (parseVal_lbracket (g + 1) _) ?_
  rw [skipWs_ws_cons _ _ (by decide)]
  cases vs with
  | nil =>
    rw [show sepJoin (([] : List J).map render) ++ '\n' :: ']' :: rest =
        '\n' :: ']' :: rest from by simp [sepJoin]]
    rw [skipWs_ws_cons _ _ (by decide), skipWs_cons _ _ (by decide)]
    rfl
  | cons v vs2 =>
    obtain ⟨c, cs, hc, hw, hne⟩ := sepJoin_map_cons_head v vs2
    rw [hc, List.cons_append, skipWs_cons _ _ hw, arrMatch_cons (g + 1) c _ hne]
    rw [show c :: (cs ++ '\n' :: ']' :: rest) =
        sepJoin ((v :: vs2).map render) ++ '\n' :: ']' :: rest from by rw [hc]; rfl]
    rw [parseElems_sepJoin (v :: vs2) (g + 1) rest (by simp) (by omega)]
    rfl

/-- One successful `WriteEntry` step inside `writeAll`. -/
theorem writeAll_step_ok (w w2 : HarWriter) (e : List Char) (es : List (List Char))
    (h : w.WriteEntry e = (w2, .ok ())) :
    writeAll w (e :: es) = writeAll w2 es := by
  rw [show writeAll w (e :: es) =
      (match w.WriteEntry e with
       | (w3, .ok ()) => writeAll w3 es
       | (w3, .error msg) => (w3, .error msg)) from rfl, h]

/-- `WriteEntry` on an open writer past its first entry. -/
theorem writeEntry_started (w : HarWriter) (e : List Char) (hc : w.closed = false)
    (hf : w.first = false) :
    w.WriteEntry e = ({ w with first := false, out := w.out ++ entrySep ++ e }, .ok ()) := by
  simp [HarWriter.WriteEntry, hc, hf]

/-- `WriteEntry` on an open writer awaiting its first entry. -/
theorem writeEntry_fresh (w : HarWriter) (e : List Char) (hc : w.closed = false)
    (hf : w.first = true) :
    w.WriteEntry e = ({ w with first := false, out := w.out ++ e }, .ok ()) := by
  simp [HarWriter.WriteEntry, hc, hf]

/-- Folding entry writes over an open, already-started writer succeeds and
appends each entry preceded by the separator. -/
theorem writeAll_started : ∀ (es : List (List Char)) (w : HarWriter),
    w.closed = false → w.first = false →
    writeAll w es = ({ first := false, closed := false, out := w.out ++ sepTail es }, .ok ())
  | [], w, hc, hf => by
    obtain ⟨wf, wc, wout⟩ := w
    simp only at hc hf
    subst hc; subst hf
    simp [writeAll, sepTail]
  | e :: es, w, hc, hf => by
    rw [writeAll_step_ok w _ e es (writeEntry_started w e hc hf)]
    rw [writeAll_started es
      { first := false, closed := w.closed, out := w.out ++ entrySep ++ e } hc rfl]
    simp [sepTail, List.append_assoc]

/-- Folding entry writes over a fresh open writer succeeds; the first entry
carries no separator, later ones do. -/
theorem writeAll_fresh_cons (w : HarWriter) (e : List Char) (es : List (List Char))
    (hc : w.closed = false) (hf : w.first = true) :
    writeAll w (e :: es) =
      ({ first := false, closed := false, out := w.out ++ sepJoin (e :: es) }, .ok ()) := by
  rw [writeAll_step_ok w _ e es (writeEntry_fresh w e hc hf)]
  rw [writeAll_started es
    { first := false, closed := w.closed, out := w.out ++ e } hc rfl]
  simp [sepJoin, List.append_assoc]

/-- The framed-array document parses as the expected log object: version
`1.2`, the creator value, and the entries array holding exactly the rendered
values. -/
theorem parse_framedDoc (c : J) (vs : List J) :
    parseJson (framedDoc c (vs.map render)) = some (logJ c vs) := by
  have hgc0 : Jfuel c ≤ 2 * (render c).length := Jfuel_le_render c
  have hge0 : JfuelElems vs ≤ 3 + 2 * (sepJoin (vs.map render)).length :=
    JfuelElems_le_sepJoin vs
  have hlen : (framedDoc c (vs.map render)).length = 34 + (render c).length + 13 +
      (sepJoin (vs.map render)).length + 4 := by
    simp [framedDoc, List.length_append, preambleA_eq, preambleB_eq, postamble_eq]
    omega
  obtain ⟨g, hg, hgc, hge⟩ : ∃ g,
      2 * (framedDoc c (vs.map render)).length + 16 = g + 8 ∧
      Jfuel c ≤ g ∧ JfuelElems vs ≤ g :=
    ⟨2 * (framedDoc c (vs.map render)).length + 8, by omega, by omega, by omega⟩
  have hdoc : framedDoc c (vs.map render) =
      '\x7b' :: '"' :: 'l' :: 'o' :: 'g' :: '"' :: ':' ::
        '\x7b' :: '"' :: 'v' :: 'e' :: 'r' :: 's' :: 'i' :: 'o' :: 'n' :: '"' :: ':' ::
        '"' :: '1' :: '.' :: '2' :: '"' :: ',' ::
        '"' :: 'c' :: 'r' :: 'e' :: 'a' :: 't' :: 'o' :: 'r' :: '"' :: ':' ::
        (render c ++ (',' ::
          '"' :: 'e' :: 'n' :: 't' :: 'r' :: 'i' :: 'e' :: 's' :: '"' :: ':' :: '[' ::
          '\n' :: (sepJoin (vs.map render) ++ '\n' :: ']' :: '\x7d' :: '\x7d' :: []))) := by
    rw [framedDoc, preambleA_eq, preambleB_eq, postamble_eq]
    simp [List.append_assoc]
  have hArr : parseVal (g + 2)
      ('[' :: '\n' :: (sepJoin (vs.map render) ++ '\n' :: ']' :: '\x7d' :: '\x7d' :: [])) =
      some (J.arr vs, '\x7d' :: '\x7d' :: []) :=
    parseVal_entries g vs ('\x7d' :: '\x7d' :: []) hge
  have hEntriesField : parseFields (g + 3)
      ('"' :: 'e' :: 'n' :: 't' :: 'r' :: 'i' :: 'e' :: 's' :: '"' :: ':' :: '[' ::
        '\n' :: (sepJoin (vs.map render) ++ '\n' :: ']' :: '\x7d' :: '\x7d' :: [])) =
      some ([(chars "entries", J.arr vs)], '\x7d' :: []) :=
    parseFields_step_rbrace (g + 2)
      ('e' :: 'n' :: 't' :: 'r' :: 'i' :: 'e' :: 's' :: '"' :: ':' :: '[' ::
        '\n' :: (sepJoin (vs.map render) ++ '\n' :: ']' :: '\x7d' :: '\x7d' :: []))
      (chars "entries")
      ('[' :: '\n' :: (sepJoin (vs.map render) ++ '\n' :: ']' :: '\x7d' :: '\x7d' :: []))
      (J.arr vs) ('\x7d' :: []) rfl
      (by rw [skipWs_cons _ _ (by decide)]; exact hArr)
  have hCreatorField : parseFields (g + 4)
      ('"' :: 'c' :: 'r' :: 'e' :: 'a' :: 't' :: 'o' :: 'r' :: '"' :: ':' ::
        (render c ++ (',' ::
          '"' :: 'e' :: 'n' :: 't' :: 'r' :: 'i' :: 'e' :: 's' :: '"' :: ':' :: '[' ::
          '\n' :: (sepJoin (vs.map render) ++ '\n' :: ']' :: '\x7d' :: '\x7d' :: [])))) =
      some ([(chars "creator", c), (chars "entries", J.arr vs)], '\x7d' :: []) := by
    refine Eq.trans (parseFields_step_comma (g + 3)
      ('c' :: 'r' :: 'e' :: 'a' :: 't' :: 'o' :: 'r' :: '"' :: ':' ::
        (render c ++ (',' ::
          '"' :: 'e' :: 'n' :: 't' :: 'r' :: 'i' :: 'e' :: 's' :: '"' :: ':' :: '[' ::
          '\n' :: (sepJoin (vs.map render) ++ '\n' :: ']' :: '\x7d' :: '\x7d' :: []))))
      (chars "creator")
      (render c ++ (',' ::
        '"' :: 'e' :: 'n' :: 't' :: 'r' :: 'i' :: 'e' :: 's' :: '"' :: ':' :: '[' ::
        '\n' :: (sepJoin (vs.map render) ++ '\n' :: ']' :: '\x7d' :: '\x7d' :: [])))
      c
      ('"' :: 'e' :: 'n' :: 't' :: 'r' :: 'i' :: 'e' :: 's' :: '"' :: ':' :: '[' ::
        '\n' :: (sepJoin (vs.map render) ++ '\n' :: ']' :: '\x7d' :: '\x7d' :: []))
      ('e' :: 'n' :: 't' :: 'r' :: 'i' :: 'e' :: 's' :: '"' :: ':' :: '[' ::
        '\n' :: (sepJoin (vs.map render) ++ '\n' :: ']' :: '\x7d' :: '\x7d' :: []))
      rfl ?_ ?_) ?_
    · rw [skipWs_render c _]
      exact parse_render (g + 3) c _ (by omega) rfl
    · exact skipWs_cons _ _ (by decide)
    · rw [hEntriesField]
      rfl
  have hVersionField : parseFields (g + 5)
      ('"' :: 'v' :: 'e' :: 'r' :: 's' :: 'i' :: 'o' :: 'n' :: '"' :: ':' ::
        '"' :: '1' :: '.' :: '2' :: '"' :: ',' ::
        '"' :: 'c' :: 'r' :: 'e' :: 'a' :: 't' :: 'o' :: 'r' :: '"' :: ':' ::
        (render c ++ (',' ::
          '"' :: 'e' :: 'n' :: 't' :: 'r' :: 'i' :: 'e' :: 's' :: '"' :: ':' :: '[' ::
          '\n' :: (sepJoin (vs.map render) ++ '\n' :: ']' :: '\x7d' :: '\x7d' :: [])))) =
      some ([(chars "version", J.str (chars "1.2")), (chars "creator", c),
             (chars "entries", J.arr vs)], '\x7d' :: []) := by
    refine Eq.trans (parseFields_step_comma (g + 4)
      ('v' :: 'e' :: 'r' :: 's' :: 'i' :: 'o' :: 'n' :: '"' :: ':' ::
        '"' :: '1' :: '.' :: '2' :: '"' :: ',' ::
        '"' :: 'c' :: 'r' :: 'e' :: 'a' :: 't' :: 'o' :: 'r' :: '"' :: ':' ::
        (render c ++ (',' ::
          '"' :: 'e' :: 'n' :: 't' :: 'r' :: 'i' :: 'e' :: 's' :: '"' :: ':' :: '[' ::
          '\n' :: (sepJoin (vs.map render) ++ '\n' :: ']' :: '\x7d' :: '\x7d' :: []))))
      (chars "version")
      ('"' :: '1' :: '.' :: '2' :: '"' :: ',' ::
        '"' :: 'c' :: 'r' :: 'e' :: 'a' :: 't' :: 'o' :: 'r' :: '"' :: ':' ::
        (render c ++ (',' ::
          '"' :: 'e' :: 'n' :: 't' :: 'r' :: 'i' :: 'e' :: 's' :: '"' :: ':' :: '[' ::
          '\n' :: (sepJoin (vs.map render) ++ '\n' :: ']' :: '\x7d' :: '\x7d' :: []))))
      (J.str (chars "1.2"))
      ('"' :: 'c' :: 'r' :: 'e' :: 'a' :: 't' :: 'o' :: 'r' :: '"' :: ':' ::
        (render c ++ (',' ::
          '"' :: 'e' :: 'n' :: 't' :: 'r' :: 'i' :: 'e' :: 's' :: '"' :: ':' :: '[' ::
          '\n' :: (sepJoin (vs.map render) ++ '\n' :: ']' :: '\x7d' :: '\x7d' :: []))))
      ('c' :: 'r' :: 'e' :: 'a' :: 't' :: 'o' :: 'r' :: '"' :: ':' ::
        (render c ++ (',' ::
          '"' :: 'e' :: 'n' :: 't' :: 'r' :: 'i' :: 'e' :: 's' :: '"' :: ':' :: '[' ::
          '\n' :: (sepJoin (vs.map render) ++ '\n' :: ']' :: '\x7d' :: '\x7d' :: []))))
      rfl ?_ ?_) ?_
    · rw [skipWs_cons _ _ (by decide)]
      rfl
    · exact skipWs_cons _ _ (by decide)
    · rw [hCreatorField]
      rfl
  have hInner : parseVal (g + 6)
      ('\x7b' :: '"' :: 'v' :: 'e' :: 'r' :: 's' :: 'i' :: 'o' :: 'n' :: '"' :: ':' ::
        '"' :: '1' :: '.' :: '2' :: '"' :: ',' ::
        '"' :: 'c' :: 'r' :: 'e' :: 'a' :: 't' :: 'o' :: 'r' :: '"' :: ':' ::
        (render c ++ (',' ::
          '"' :: 'e' :: 'n' :: 't' :: 'r' :: 'i' :: 'e' :: 's' :: '"' :: ':' :: '[' ::
          '\n' :: (sepJoin (vs.map render) ++ '\n' :: ']' :: '\x7d' :: '\x7d' :: [])))) =
      some (J.obj [(chars "version", J.str (chars "1.2")), (chars "creator", c),
                   (chars "entries", J.arr vs)], '\x7d' :: []) := by
    refine Eq.trans (parseVal_lbrace (g + 5) _) ?_
    rw [skipWs_cons _ _ (by decide), objMatch_cons (g + 5) '"' _ (by decide)]
    rw [hVersionField]
    rfl
  have hLogField : parseFields (g + 7)
      ('"' :: 'l' :: 'o' :: 'g' :: '"' :: ':' ::
        '\x7b' :: '"' :: 'v' :: 'e' :: 'r' :: 's' :: 'i' :: 'o' :: 'n' :: '"' :: ':' ::
        '"' :: '1' :: '.' :: '2' :: '"' :: ',' ::
        '"' :: 'c' :: 'r' :: 'e' :: 'a' :: 't' :: 'o' :: 'r' :: '"' :: ':' ::
        (render c ++ (',' ::
          '"' :: 'e' :: 'n' :: 't' :: 'r' :: 'i' :: 'e' :: 's' :: '"' :: ':' :: '[' ::
          '\n' :: (sepJoin (vs.map render) ++ '\n' :: ']' :: '\x7d' :: '\x7d' :: [])))) =
      some ([(chars "log",
              J.obj [(chars "version", J.str (chars "1.2")), (chars "creator", c),
                     (chars "entries", J.arr vs)])], []) :=
    parseFields_step_rbrace (g + 6)
      ('l' :: 'o' :: 'g' :: '"' :: ':' ::
        '\x7b' :: '"' :: 'v' :: 'e' :: 'r' :: 's' :: 'i' :: 'o' :: 'n' :: '"' :: ':' ::
        '"' :: '1' :: '.' :: '2' :: '"' :: ',' ::
        '"' :: 'c' :: 'r' :: 'e' :: 'a' :: 't' :: 'o' :: 'r' :: '"' :: ':' ::
        (render c ++ (',' ::
          '"' :: 'e' :: 'n' :: 't' :: 'r' :: 'i' :: 'e' :: 's' :: '"' :: ':' :: '[' ::
          '\n' :: (sepJoin (vs.map render) ++ '\n' :: ']' :: '\x7d' :: '\x7d' :: []))))
      (chars "log")
      ('\x7b' :: '"' :: 'v' :: 'e' :: 'r' :: 's' :: 'i' :: 'o' :: 'n' :: '"' :: ':' ::
        '"' :: '1' :: '.' :: '2' :: '"' :: ',' ::
        '"' :: 'c' :: 'r' :: 'e' :: 'a' :: 't' :: 'o' :: 'r' :: '"' :: ':' ::
        (render c ++ (',' ::
          '"' :: 'e' :: 'n' :: 't' :: 'r' :: 'i' :: 'e' :: 's' :: '"' :: ':' :: '[' ::
          '\n' :: (sepJoin (vs.map render) ++ '\n' :: ']' :: '\x7d' :: '\x7d' :: []))))
      (J.obj [(chars "version", J.str (chars "1.2")), (chars "creator", c),
              (chars "entries", J.arr vs)])
      [] rfl
      (by rw [skipWs_cons _ _ (by decide)]; exact hInner)
  have hTop : parseVal (g + 8) (framedDoc c (vs.map render)) = some (logJ c vs, []) := by
    rw [hdoc]
    refine Eq.trans (parseVal_lbrace (g + 7) _) ?_
    rw [skipWs_cons _ _ (by decide), objMatch_cons (g + 7) '"' _ (by decide)]
    rw [hLogField]
    rfl
  have hskip : skipWs (framedDoc c (vs.map render)) = framedDoc c (vs.map render) := by
    rw [hdoc]
    exact skipWs_cons _ _ (by decide)
  simp only [parseJson, hskip, hg, hTop]
  rfl

/-- C1: after construction (which emits the preamble), `n` successful entry
writes and one finalize, the framed-array writer's sink holds exactly the
framed document — preamble, creator JSON, each entry after the first preceded
by `",\n"`, closing framing — and those bytes parse as a single JSON object
`log / version 1.2 / creator / entries` whose entries array has length
exactly `n`. -/
theorem harWriter_framed_array_output (creator : J) (vs : List J) :
    ∃ w1 : HarWriter,
      writeAll (NewHarWriter creator) (vs.map render) = (w1, .ok ()) ∧
      w1.Close.2 = .ok () ∧
      w1.Close.1.out = framedDoc creator (vs.map render) ∧
      parseJson w1.Close.1.out = some (logJ creator vs) ∧
      (vs.map render).length = vs.length := by
  have hw : ∃ w1 : HarWriter, writeAll (NewHarWriter creator) (vs.map render) = (w1, .ok ()) ∧
      w1.closed = false ∧ w1.out = (NewHarWriter creator).out ++ sepJoin (vs.map render) := by
    cases hvs : vs.map render with
    | nil =>
      exact ⟨NewHarWriter creator, rfl, rfl, by simp [sepJoin]⟩
    | cons e es =>
      refine ⟨_, writeAll_fresh_cons (NewHarWriter creator) e es rfl rfl, rfl, rfl⟩
  obtain ⟨w1, hrun, hclosed, hout⟩ := hw
  have hclose : w1.Close = ({ w1 with closed := true, out := w1.out ++ postamble }, .ok ()) := by
    simp [HarWriter.Close, hclosed]
  refine ⟨w1, hrun, by rw [hclose], ?_, ?_, by simp⟩
  · rw [hclose]
    show w1.out ++ postamble = _
    rw [hout]
    show (preambleA ++ render creator ++ preambleB) ++ sepJoin (vs.map render) ++ postamble = _
    simp [framedDoc, List.append_assoc]
  · rw [show w1.Close.1.out = framedDoc creator (vs.map render) from by
      rw [hclose]
      show w1.out ++ postamble = _
      rw [hout]
      show (preambleA ++ render creator ++ preambleB) ++ sepJoin (vs.map render) ++ postamble = _
      simp [framedDoc, List.append_assoc]]
    exact parse_framedDoc creator vs

end Har
